import Mathlib

/-!
Verification of the Automatic-Summarization-System repository.

The development shallowly embeds the Python sources:
  * `Evaluador`  — src/evaluador_resumenes.py (number extraction, repetition
    rate, per-record scoring, per-model aggregation);
  * `EvaluadorV1` — src/evaluador_resumenes_v1.py (the older evaluator's
    number extraction and record loop);
  * `Extractor`  — src/extractor_becas.py (the Document-Record builder);
  * `Halluc`     — src/hallucination_evaluator.py (premise-text synthesis).

Python strings are Lean `String`s; Python sets of strings are `Finset String`;
Python floats are modelled as exact rationals `ℚ`; Python code that can raise
an exception is written in `Except String` where the error carries the Python
exception name.  Regular-expression searches whose patterns are plain
character classes are implemented exactly on the character lists; searches
with free-form patterns are abstracted by `Option`-typed parameters holding
the groups of the match (with hypotheses recording what Python's `re`
guarantees about a group captured by a given character class).
-/

namespace Py

/-- The whitespace characters recognised by Python's `str.split()` /
`str.strip()` (the ASCII ones; the sources contain no exotic whitespace). -/
def isSpace (c : Char) : Bool :=
  c = ' ' || c = '\t' || c = '\n' || c = '\r' || c = '\x0b' || c = '\x0c'

/-- Scanner for `runsP`: `acc` holds the reversed current run. -/
def runsPAux (p : Char → Bool) : List Char → List Char → List (List Char)
  | [], acc => if acc = [] then [] else [acc.reverse]
  | c :: cs, acc =>
    if p c then runsPAux p cs (c :: acc)
    else if acc = [] then runsPAux p cs []
    else acc.reverse :: runsPAux p cs []

/-- Maximal runs of characters satisfying `p`; empty runs are dropped.
`runsP p` is simultaneously Python's `str.split()` (with `p` = "not a space")
and `re.findall` of a single character class `[p]+`. -/
def runsP (p : Char → Bool) (cs : List Char) : List (List Char) :=
  runsPAux p cs []

/-- Python `text.split()` : whitespace-delimited tokens, empties dropped. -/
def pySplit (s : String) : List String :=
  (runsP (fun c => !isSpace c) s.data).map (fun cs => String.mk cs)

/-- Python `text.lower()` (ASCII case folding, as used by the sources). -/
def pyLower (s : String) : String :=
  String.mk (s.data.map Char.toLower)

/-- Python `text.strip()`. -/
def pyStrip (s : String) : String :=
  String.mk (((s.data.dropWhile isSpace).reverse.dropWhile isSpace).reverse)

/-- Python `str.split(sep)` on a single-character separator (keeps empties). -/
def splitChar (sep : Char) (cs : List Char) : List (List Char) :=
  cs.foldr
    (fun c acc =>
      if c = sep then [] :: acc
      else
        match acc with
        | [] => [[c]]
        | a :: as => (c :: a) :: as)
    [[]]

/-- Python `int(s)` on the digit-only strings the sources feed it: raises
`ValueError` unless the string is nonempty and all decimal digits. -/
def pyInt (s : String) : Except String Int :=
  if s.data ≠ [] ∧ s.data.all Char.isDigit then
    .ok (s.data.foldl (fun n c => n * 10 + (c.toNat - 48)) 0 : Nat)
  else .error "ValueError"

/-- Python `l[i]` : raises `IndexError` when out of range. -/
def pyIndex {α : Type} (l : List α) (i : Nat) : Except String α :=
  match l.get? i with
  | some a => .ok a
  | none => .error "IndexError"

end Py

namespace Evaluador
/-! Embedding of src/evaluador_resumenes.py. -/

/-- The character class `[\d\.,]` of `extract_numbers`. -/
def isNumChar (c : Char) : Bool := c.isDigit || c = '.' || c = ','

/-- Lines 12–22: `re.findall(r'[\d\.,]+', text)`, strip periods and commas,
keep the strings that satisfy `str.isdigit()`, collect into a set. -/
def extract_numbers (text : String) : Finset String :=
  ((Py.runsP isNumChar text.data).filterMap (fun n =>
      let clean := n.filter (fun c => !(c = '.' || c = ','))
      if clean ≠ [] ∧ clean.all Char.isDigit then some (String.mk clean)
      else none)).toFinset

/-- Lines 24–30: fraction of repeated words (0 for empty / whitespace-only
text, else `1 - len(set(words)) / len(words)` over lowercased tokens). -/
def calculate_repetition_rate (text : String) : ℚ :=
  if Py.pySplit text = [] then 0
  else
    let words := Py.pySplit (Py.pyLower text)
    1 - ((words.dedup.length : ℚ) / (words.length : ℚ))

/-- Round-half-to-even to an integer (Python's `round` on exact values). -/
def roundHalfEven (q : ℚ) : ℤ :=
  if q - ⌊q⌋ < 1/2 then ⌊q⌋
  else if 1/2 < q - ⌊q⌋ then ⌊q⌋ + 1
  else if Even ⌊q⌋ then ⌊q⌋ else ⌊q⌋ + 1

/-- Python `round(q, 2)`. -/
def round2 (q : ℚ) : ℚ := (roundHalfEven (q * 100) : ℚ) / 100

/-- One generation record as consumed by the loop (the `"error"` key is
modelled by the `hasError` flag; absent metadata keys default to 0 as in
`result.get(..., 0)`). -/
structure GenRecord where
  hasError : Bool
  text : String
  time_seconds : ℚ
  tokens_output : ℚ

/-- Line 68's filtered hallucination set: numbers of the generated text that
are not reference facts, single-digit numbers dropped. -/
def hallucinated_nums (text : String) (target_facts : Finset String) :
    Finset String :=
  (extract_numbers text \ target_facts).filter (fun n => 1 < n.length)

/-- Line 71: reference numbers of length at least 3. -/
def key_amounts (target_facts : Finset String) : Finset String :=
  target_facts.filter (fun n => 3 ≤ n.length)

/-- Line 72: recalled numbers. -/
def recalled_nums (text : String) (target_facts : Finset String) :
    Finset String :=
  extract_numbers text ∩ key_amounts target_facts

/-- Line 73: the fact-recall percentage. -/
def recall_score (text : String) (target_facts : Finset String) : ℚ :=
  if key_amounts target_facts ≠ ∅ then
    ((recalled_nums text target_facts).card : ℚ) /
      ((key_amounts target_facts).card : ℚ) * 100
  else 0

/-- One Evaluation Record (detail row), lines 77–86. -/
structure EvalEntry where
  Year : String
  Model : String
  Time_s : ℚ
  Tokens_Out : ℚ
  Fact_Recall_Pct : ℚ
  Hallucinations_Count : ℕ
  Repetition_Pct : ℚ
  Word_Count : ℕ

/-- Lines 63–86: score one non-error generation record. -/
def eval_entry (year model : String) (target_facts : Finset String)
    (r : GenRecord) : EvalEntry :=
  { Year := year
    Model := model
    Time_s := r.time_seconds
    Tokens_Out := r.tokens_output
    Fact_Recall_Pct := round2 (recall_score r.text target_facts)
    Hallucinations_Count := (hallucinated_nums r.text target_facts).card
    Repetition_Pct := round2 (calculate_repetition_rate r.text * 100)
    Word_Count := (Py.pySplit r.text).length }

/-- Lines 47–87: the main loop.  `facts` abstracts lines 48–58 (the reference
number set computed for a year key); `gens` is `resumenes_generados.json` as
an ordered year → (model → record) mapping.  Records carrying the `"error"`
key are skipped (line 61). -/
def run_evaluation (facts : String → Finset String)
    (gens : List (String × List (String × GenRecord))) : List EvalEntry :=
  gens.flatMap (fun ym =>
    ym.2.filterMap (fun mr =>
      if mr.2.hasError then none
      else some (eval_entry ym.1 mr.1 (facts ym.1) mr.2)))

/-- First-occurrence key order of a Python dict built by repeated insertion
(lines 98–104 insert models in entry order). -/
def pyKeys : List String → List String
  | [] => []
  | x :: xs => x :: (pyKeys xs).filter (fun y => y ≠ x)

/-- One per-model comparison row (lines 106–111). -/
structure ModelSummary where
  Model : String
  Time_s : ℚ
  Fact_Recall_Pct : ℚ
  Hallucinations_Count : ℚ
  Repetition_Pct : ℚ
  Word_Count : ℚ

/-- Line 110: `round(sum(v) / len(v), 2)`. -/
def colMean (vals : List ℚ) : ℚ := round2 (vals.sum / (vals.length : ℚ))

/-- Lines 97–111: group detail rows by model (appending each matching row's
column values in order, which yields exactly the filtered column lists) and
average each column. -/
def model_comparison (entries : List EvalEntry) : List ModelSummary :=
  (pyKeys (entries.map (fun e => e.Model))).map (fun m =>
    let grp := entries.filter (fun e => e.Model == m)
    { Model := m
      Time_s := colMean (grp.map (fun e => e.Time_s))
      Fact_Recall_Pct := colMean (grp.map (fun e => e.Fact_Recall_Pct))
      Hallucinations_Count :=
        colMean (grp.map (fun e => (e.Hallucinations_Count : ℚ)))
      Repetition_Pct := colMean (grp.map (fun e => e.Repetition_Pct))
      Word_Count := colMean (grp.map (fun e => (e.Word_Count : ℚ))) })

end Evaluador

namespace EvaluadorV1
/-! Embedding of the scoring loop of src/evaluador_resumenes_v1.py
(`NLGPerformanceAudit.run_evaluation`).  The ROUGE/BLEU/BERTScore columns are
delegated to external libraries and are outside the embedded core; the rows
themselves, the numeric-accuracy columns and the skip conditions are
modelled. -/

/-- `re.findall` of the pattern of `_extract_numbers` (lines 80–94): a digit
run optionally followed by one separator and a second digit run. -/
def v1Scan : List Char → List (List Char)
  | [] => []
  | c :: cs =>
    if c.isDigit then
      let r1 := c :: cs.takeWhile Char.isDigit
      match h : cs.dropWhile Char.isDigit with
      | s :: rest2 =>
        if (s = '.' || s = ',') then
          match hr : rest2 with
          | d :: rest3 =>
            if d.isDigit then
              (r1 ++ s :: (d :: rest3.takeWhile Char.isDigit)) ::
                v1Scan (rest3.dropWhile Char.isDigit)
            else r1 :: v1Scan (s :: rest2)
          | [] => r1 :: v1Scan (s :: rest2)
        else r1 :: v1Scan (s :: rest2)
      | [] => [r1]
    else v1Scan cs
termination_by l => l.length
decreasing_by
  all_goals
    try have ha : (cs.dropWhile Char.isDigit).length ≤ cs.length :=
      (List.dropWhile_sublist _).length_le
    try have hb : (rest3.dropWhile Char.isDigit).length ≤ rest3.length :=
      (List.dropWhile_sublist _).length_le
    try subst hr
    try rw [h] at ha
    try simp only [List.length_cons] at ha
    simp only [List.length_cons]
    omega

/-- Lines 87–93 applied to a string: find the matches, strip separators, keep
the normalized numbers of length at least 2, collect into a set. -/
def extract_numbers_v1 (text : String) : Finset String :=
  ((v1Scan text.data).filterMap (fun m =>
      let clean := m.filter (fun c => !(c = '.' || c = ','))
      if 2 ≤ clean.length then some (String.mk clean) else none)).toFinset

/-- One detail row of the v1 auditor (lines 184–193 restricted to the
embedded columns; ROUGE/BLEU/BERTScore are produced by external libraries). -/
structure EvalEntryV1 where
  Year : String
  Model : String
  Recall_Pct : ℚ
  Halluc_Rate_Pct : ℚ
  Latency_s : ℚ

/-- Lines 156–193: score one non-error generation record of the v1 loop. -/
def eval_entry_v1 (year model : String) (refNumbers : Finset String)
    (d : Evaluador.GenRecord) : EvalEntryV1 :=
  let sumNumbers := extract_numbers_v1 d.text
  { Year := year
    Model := model
    Recall_Pct := Evaluador.round2
      (if refNumbers ≠ ∅ then
        ((sumNumbers ∩ refNumbers).card : ℚ) / (refNumbers.card : ℚ) * 100
      else 0)
    Halluc_Rate_Pct := Evaluador.round2
      (if sumNumbers ≠ ∅ then
        ((sumNumbers \ refNumbers).card : ℚ) / (sumNumbers.card : ℚ) * 100
      else 0)
    Latency_s := Evaluador.round2 d.time_seconds }

/-- Lines 145–193: the v1 loop.  A year absent from the reference data is
skipped (line 147); a record carrying the `"error"` key is skipped (line
154).  `refNums` abstracts `_extract_numbers(ref_data)` and `factYears` the
key set of `facts_by_year`. -/
def run_evaluation_v1 (refNums : String → Finset String)
    (factYears : List String)
    (gens : List (String × List (String × Evaluador.GenRecord))) :
    List EvalEntryV1 :=
  gens.flatMap (fun ym =>
    if ym.1 ∈ factYears then
      ym.2.filterMap (fun mr =>
        if mr.2.hasError then none
        else some (eval_entry_v1 ym.1 mr.1 (refNums ym.1) mr.2))
    else [])

end EvaluadorV1

/-- A dynamically typed Python value, as stored in the nested fields of a
Document Record (JSON-shaped: strings, integers, dicts with string keys in
insertion order, lists). -/
inductive PyVal where
  | str (s : String)
  | int (n : Int)
  | dict (entries : List (String × PyVal))
  | list (items : List PyVal)

/-- Discriminator: is the value a Python string? -/
def isStrV : PyVal → Bool
  | .str _ => true
  | _ => false

namespace Extractor
/-! Embedding of src/extractor_becas.py (`SistemaExtraccionBecas`).  Each
extraction rule is a function of the outcomes of its regex searches: an
`Option`-typed argument holds the captured groups when the pattern matched
(`none` = no match).  Searches whose patterns are plain character classes
(the threshold-table row formats and `looks_like_amount`) are implemented
exactly.  Python operations that can raise are modelled in `Except String`
carrying the Python exception name. -/

/-- The character class `[\d\.]` (threshold amounts). -/
def isAmtChar (c : Char) : Bool := c.isDigit || c = '.'

/-- Nonempty and drawn from the class `[\d\.,]` — what Python's `re`
guarantees about a group captured by `([\d\.,]+)` (and supersets of what it
guarantees for `([\d,]+)` and `(\d[\d\.,]*)`). -/
def numLocale (s : String) : Prop :=
  s.data ≠ [] ∧ s.data.all (fun c => c.isDigit || c = '.' || c = ',') = true

/-- Nonempty all-digits — what `re` guarantees for a `(\d+)` group. -/
def digitsOnly (s : String) : Prop :=
  s.data ≠ [] ∧ s.data.all Char.isDigit = true

/-- Nonempty and drawn from the class `[\d\.]` (a threshold amount). -/
def amtStr (s : String) : Prop :=
  s.data ≠ [] ∧ s.data.all (fun c => c.isDigit || c = '.') = true

/-- The shape of one excellence-bracket entry. -/
def bracketShape (x : PyVal) : Prop :=
  ∃ (rng : String) (n : Int),
    x = .dict [("nota_media", .str rng), ("cuantia_euros", .int n)]

/-- Lift a predicate over an optional match result. -/
def optP (P : String → Prop) : Option String → Prop
  | none => True
  | some s => P s

/-- `marker.isPrefix line` as a boolean on character lists. -/
def startsWith : List Char → List Char → Bool
  | [], _ => true
  | _ :: _, [] => false
  | m :: ms, c :: cs => m = c && startsWith ms cs

/-- Python `marker in line` (substring test). -/
def containsSub (needle : List Char) : List Char → Bool
  | [] => startsWith needle []
  | c :: cs => startsWith needle (c :: cs) || containsSub needle cs

/-- `re.sub(marker ++ ".*", "", line)` restricted to one line: drop
everything from the first occurrence of the marker on. -/
def cutFrom (marker : List Char) : List Char → List Char
  | [] => []
  | c :: cs => if startsWith marker (c :: cs) then [] else c :: cutFrom marker cs

/-- Python `str.isdigit()`. -/
def isdigitStr (s : String) : Bool :=
  !s.data.isEmpty && s.data.all Char.isDigit

/-- Lines 18–22: `clean_text` collapses whitespace runs to single spaces and
strips the ends. -/
def clean_text (s : String) : String :=
  String.intercalate " "
    ((Py.runsP (fun c => !Py.isSpace c) s.data).map (fun cs => String.mk cs))

/-- The `20\d{2}-\d{2}` shape guaranteed by `re` for the third fallback of
the academic-year rule. -/
def yearShortShape (y : String) : Prop :=
  ∃ a b c d : Char, y.data = ['2', '0', a, b, '-', c, d] ∧
    a.isDigit = true ∧ b.isDigit = true ∧ c.isDigit = true ∧ d.isDigit = true

/-- Lines 24–41: `extract_academic_year`.  `m1` is group 1 of the header
pattern, `m2` group 0 of `20\d{2}-20\d{2}` on the filename, `m3` group 0 of
`20\d{2}-\d{2}` on the filename. -/
def extract_academic_year (m1 m2 m3 : Option String) : Except String String :=
  match m1 with
  | some y => .ok y
  | none =>
  match m2 with
  | some y => .ok y
  | none =>
  match m3 with
  | some y => do
    let parts := (Py.splitChar '-' y.data).map (fun cs => String.mk cs)
    let p0 ← Py.pyIndex parts 0
    let p1 ← Py.pyIndex parts 1
    .ok ("20" ++ String.mk (p0.data.drop 2) ++ "-20" ++ p1)
  | none => .ok "Desconocido"

/-- Lines 43–68: `extract_programs` applied to the captured Article-3
section.  The three `re.sub` noise removals truncate each line at the first
occurrence of the marker (`.*` does not cross newlines). -/
def extract_programs (m : Option String) : Except String String :=
  match m with
  | none => .ok "No detectado"
  | some content =>
    let lines := (Py.splitChar '\n' content.data).map (fun l =>
      cutFrom "DIRECCIÓN DE VALIDACIÓN".data
        (cutFrom "FIRMANTE".data (cutFrom "CSV :".data l)))
    let programs := lines.filterMap (fun l =>
      let line := Py.pyStrip (String.mk l)
      if decide (10 < line.data.length) && !isdigitStr line &&
          !containsSub "Página".data line.data then some line else none)
    let full := clean_text (String.intercalate " " programs)
    .ok (if full ≠ "" then full else "No detectado")

/-- The named monetary amounts of lines 70–105. -/
structure Amounts where
  cuantia_renta_fija : String
  cuantia_residencia : String
  beca_basica : String
  cuantia_variable_minima : String
  excelencia_min : String
  excelencia_max : String

/-- Lines 70–105: `extract_amounts`.  `variable` is the group of whichever
of the two variable-amount fallbacks matched first; `excel` the two groups
of the excellence-range pattern; `has50`/`has125` the outcomes of the
literal `50 euros` / `125 euros` searches. -/
def extract_amounts (renta residencia basica varMin : Option String)
    (excel : Option (String × String)) (has50 has125 : Bool) :
    Except String Amounts :=
  .ok { cuantia_renta_fija := renta.getD "No detectado"
        cuantia_residencia := residencia.getD "No detectado"
        beca_basica := basica.getD "No detectado"
        cuantia_variable_minima := varMin.getD "60,00"
        excelencia_min :=
          match excel with
          | some p => p.1
          | none => if has50 then "50" else "No detectado"
        excelencia_max :=
          match excel with
          | some p => p.2
          | none => if has125 then "125" else "No detectado" }

/-- One parsed row of the income-threshold table. -/
structure TableRow where
  miembros : String
  umbral_1 : String
  umbral_2 : String
  umbral_3 : String
deriving DecidableEq

/-- `re.match(r"^(\d+)\s+([\d\.]+)\s+([\d\.]+)(?:\s+([\d\.]+))?", line)`
(line 150), implemented by maximal-munch scanning — exact here because the
character classes of adjacent pieces are disjoint, so the regex engine never
backtracks into a shorter run. -/
def rowMatch (line : String) : Option (String × String × String × Option String) :=
  let cs := line.data
  let g1 := cs.takeWhile Char.isDigit
  if g1.isEmpty then none else
  let r1 := cs.dropWhile Char.isDigit
  if (r1.takeWhile Py.isSpace).isEmpty then none else
  let r2 := r1.dropWhile Py.isSpace
  let g2 := r2.takeWhile isAmtChar
  if g2.isEmpty then none else
  let r3 := r2.dropWhile isAmtChar
  if (r3.takeWhile Py.isSpace).isEmpty then none else
  let r4 := r3.dropWhile Py.isSpace
  let g3 := r4.takeWhile isAmtChar
  if g3.isEmpty then none else
  let r5 := r4.dropWhile isAmtChar
  let r6 := r5.dropWhile Py.isSpace
  let g4 := r6.takeWhile isAmtChar
  if !(r5.takeWhile Py.isSpace).isEmpty && !g4.isEmpty then
    some (String.mk g1, String.mk g2, String.mk g3, some (String.mk g4))
  else
    some (String.mk g1, String.mk g2, String.mk g3, none)

/-- `re.match(r"^\d+$", line)` on an already stripped line (line 162). -/
def bareIntLine (s : String) : Bool :=
  !s.data.isEmpty && s.data.all Char.isDigit

/-- Lines 507–510: `looks_like_amount` checks the index bound and then
`re.match(r"^[\d\.]+$", lines[idx].strip())`. -/
def looks_like_amount (lines : List String) (idx : Nat) : Bool :=
  match lines.get? idx with
  | none => false
  | some l =>
    let t := Py.pyStrip l
    !t.data.isEmpty && t.data.all isAmtChar

/-- Lines 164–169: the lookahead loop collecting up to 3 amount lines after
a bare member-count line (`rest` is the list of lines after the current
one). -/
def takeAmounts : List String → Nat → Except String (List String)
  | _, 0 => .ok []
  | rest, k + 1 =>
    if looks_like_amount rest 0 then do
      let v ← Py.pyIndex rest 0
      let vs ← takeAmounts rest.tail k
      .ok (Py.pyStrip v :: vs)
    else .ok []

/-- Lines 143–181: the strategy-B while loop over the section's lines.
Written with an explicit fuel argument (one unit per line consumed) so that
the definition is structurally recursive; `stratB` instantiates the fuel
with the line count, which `stratBF_fuel` below proves sufficient.  A line
matching the row format contains a space, so it can never satisfy the bare
`^\d+$` check; an over-bound row therefore falls through to the next line
exactly as in the source. -/
def stratBF : Nat → List String → Except String (List TableRow)
  | _, [] => .ok []
  | 0, _ :: _ => .ok []
  | fuel + 1, l :: rest =>
    let line := Py.pyStrip l
    match rowMatch line with
    | some (g1, g2, g3, g4) => do
      let n ← Py.pyInt g1
      if n < 20 then do
        let rows ← stratBF fuel rest
        .ok ({ miembros := g1, umbral_1 := g2, umbral_2 := g3,
               umbral_3 := g4.getD "N/A" } :: rows)
      else stratBF fuel rest
    | none =>
      if bareIntLine line then do
        let n ← Py.pyInt line
        if n < 20 then do
          let vals ← takeAmounts rest 3
          if 2 ≤ vals.length then do
            let v0 ← Py.pyIndex vals 0
            let v1 ← Py.pyIndex vals 1
            let v2 ← if 2 < vals.length then Py.pyIndex vals 2 else .ok "N/A"
            let rows ← stratBF fuel (rest.drop vals.length)
            .ok ({ miembros := line, umbral_1 := v0, umbral_2 := v1,
                   umbral_3 := v2 } :: rows)
          else stratBF fuel rest
        else stratBF fuel rest
      else stratBF fuel rest

/-- Strategy B over a section's lines. -/
def stratB (lines : List String) : Except String (List TableRow) :=
  stratBF lines.length lines

/-- Python dict insertion: overwrite in place, else append. -/
def dictInsertStr (es : List (String × String)) (k v : String) :
    List (String × String) :=
  if es.any (fun p => p.1 == k) then
    es.map (fun p => if p.1 == k then (k, v) else p)
  else es ++ [(k, v)]

/-- Lines 132–136: build `t_vals` from the `finditer` member/amount pairs. -/
def buildTVals (pairs : List (String × String)) : List (String × String) :=
  pairs.foldl (fun acc p => dictInsertStr acc p.1 p.2) []

/-- Lines 126–139: strategy A over the three keyed `Umbral i` sections
(`secs i` holds the `finditer` pairs of section `i+1` when it matched). -/
def stratA (secs : Fin 3 → Option (List (String × String))) :
    List (String × List (String × String)) :=
  (List.finRange 3).filterMap (fun i =>
    match secs i with
    | none => none
    | some pairs =>
      let tv := buildTVals pairs
      if tv ≠ [] then some ("Umbral " ++ toString (i.val + 1), tv) else none)

/-- Convert a parsed table row to its Python dict (lines 152–157/172–177). -/
def rowToPyVal (r : TableRow) : PyVal :=
  .dict [("miembros", .str r.miembros), ("umbral_1", .str r.umbral_1),
         ("umbral_2", .str r.umbral_2), ("umbral_3", .str r.umbral_3)]

/-- Lines 107–186: `extract_thresholds`.  `contentOpt` is the Article-19
section slice when the start pattern matched; `secs` the strategy-A section
results on that content.  Returns the sentinel when Article 19 is absent,
the keyed dict when strategy A found rows, else the strategy-B table (or an
empty dict when neither strategy produced anything). -/
def extract_thresholds (contentOpt : Option String)
    (secs : Fin 3 → Option (List (String × String))) : Except String PyVal :=
  match contentOpt with
  | none => .ok (.str "No detectado")
  | some content =>
    let keyed := stratA secs
    if keyed ≠ [] then
      .ok (.dict (keyed.map (fun p =>
        (p.1, PyVal.dict (p.2.map (fun q => (q.1, PyVal.str q.2)))))))
    else do
      let td ← stratB
        ((Py.splitChar '\n' content.data).map (fun cs => String.mk cs))
      if td ≠ [] then .ok (.dict [("tabla", .list (td.map rowToPyVal))])
      else .ok (.dict [])

/-- One optional dict entry holding a captured string. -/
def optEntry (m : Option String) (k : String) : List (String × PyVal) :=
  match m with
  | some g => [(k, PyVal.str g)]
  | none => []

/-- Lines 188–220: `extract_patrimonio_thresholds`.  `sectionFound` is
whether either section pattern matched; the four options are the inner
group captures on the section content. -/
def extract_patrimonio_thresholds (sectionFound : Bool)
    (urban ruralConst ruralLand capital : Option String) :
    Except String PyVal :=
  if sectionFound then
    let es := optEntry urban "fincas_urbanas_limite" ++
      optEntry ruralConst "construcciones_rusticas_limite" ++
      optEntry ruralLand "fincas_rusticas_limite_por_miembro" ++
      optEntry capital "capital_mobiliario_limite"
    if es.isEmpty then .ok (.str "No detectado") else .ok (.dict es)
  else .ok (.str "No detectado")

/-- Lines 222–258: `extract_academic_requirements`.  `creditos` and
`parcial` are `(\d+)` captures fed to `int`, `nota` a `([\d,]+)` capture,
`areas i` the `(\d+)` capture of the i-th pass-rate pattern. -/
def extract_academic_requirements (creditos parcial nota : Option String)
    (areas : Fin 5 → Option String) : Except String PyVal := do
  let e1 ← match creditos with
    | some g => do
      let n ← Py.pyInt g
      pure [("creditos_tiempo_completo", PyVal.int n)]
    | none => pure []
  let e2 ← match parcial with
    | some g => do
      let n ← Py.pyInt g
      pure [("creditos_matricula_parcial", PyVal.int n)]
    | none => pure []
  let e3 := optEntry nota "nota_acceso_universidad"
  let areaNames := ["Artes y Humanidades", "Ciencias",
    "Ciencias Sociales y Jurídicas", "Ciencias de la Salud",
    "Ingeniería y Arquitectura"]
  let rates := (List.finRange 5).filterMap (fun i =>
    match areas i with
    | some g => some (areaNames.getD i.val "", PyVal.str (g ++ "%"))
    | none => none)
  let e4 := if rates.isEmpty then []
    else [("porcentaje_creditos_por_rama", PyVal.dict rates)]
  let es := e1 ++ e2 ++ e3 ++ e4
  if es.isEmpty then pure (.str "No detectado") else pure (.dict es)

/-- One iteration of the bracket-pattern loop (lines 272–278). -/
def bracketStep (acc : List PyVal) (p : Option String × String) :
    Except String (List PyVal) :=
  match p.1 with
  | none => pure acc
  | some g => do
    let n ← Py.pyInt g
    pure (acc ++ [PyVal.dict [("nota_media", PyVal.str p.2),
      ("cuantia_euros", PyVal.int n)]])

/-- Lines 260–280: `extract_excellence_brackets`.  `m1`–`m4` are the
`(\d+)` captures of the four grade-bracket patterns, parsed with `int`. -/
def extract_excellence_brackets (m1 m2 m3 m4 : Option String) :
    Except String PyVal := do
  let bs ← [(m1, "8.00-8.49"), (m2, "8.50-8.99"), (m3, "9.00-9.49"),
    (m4, "9.50+")].foldlM bracketStep []
  if bs.isEmpty then pure (.str "No detectado") else pure (.list bs)

/-- Lines 282–316: `extract_insular_supplements`.  `remote` is the group of
whichever remote-island fallback matched first; `peninsula` the `findall`
pair list, of which only the first pair is read (guarded by the emptiness
test of line 307). -/
def extract_insular_supplements (sectionFound : Bool)
    (basic remote : Option String) (peninsula : List (String × String))
    (fp : Option String) : Except String PyVal := do
  if sectionFound then do
    let e1 := optEntry basic "suplemento_insular_basico"
    let e2 := optEntry remote "suplemento_islas_remotas"
    let e3 ← match peninsula with
      | [] => pure []
      | _ :: _ => do
        let p ← Py.pyIndex peninsula 0
        pure [("suplemento_interinsular_peninsula", PyVal.str p.1),
              ("suplemento_interinsular_peninsula_remotas", PyVal.str p.2)]
    let e4 := optEntry fp "suplemento_fp_canarias"
    let es := e1 ++ e2 ++ e3 ++ e4
    if es.isEmpty then pure (.str "No detectado") else pure (.dict es)
  else pure (.str "No detectado")

/-- Lines 318–370: `extract_income_deductions`.  Each option is the group of
the corresponding deduction pattern (`famEsp` collapses its two-fallback
chain); `huerfano` is the `(\d+)` capture rendered as a percentage. -/
def extract_income_deductions
    (famGral famEsp d33 d65 dUni hermano huerfano mono : Option String) :
    Except String PyVal :=
  let es := optEntry famGral "deduccion_familia_numerosa_general" ++
    optEntry famEsp "deduccion_familia_numerosa_especial" ++
    optEntry d33 "deduccion_discapacidad_33" ++
    optEntry d65 "deduccion_discapacidad_65" ++
    optEntry dUni "deduccion_discapacidad_65_universitario" ++
    optEntry hermano "deduccion_hermano_universitario_fuera" ++
    (match huerfano with
     | some g => [("deduccion_huerfano_porcentaje", PyVal.str (g ++ "%"))]
     | none => []) ++
    optEntry mono "deduccion_familia_monoparental"
  if es.isEmpty then .ok (.str "No detectado") else .ok (.dict es)

/-- Lines 372–398: `extract_disability_provisions`.  `reduccion` is the
disjunction of the two reduced-load searches; `incr25`/`incr50` the `(\d+)`
captures rendered as percentages. -/
def extract_disability_provisions (sectionFound reduccion : Bool)
    (incr25 incr50 : Option String) : Except String PyVal :=
  if sectionFound then
    let e1 := if reduccion then
      [("reduccion_carga_lectiva", PyVal.str "Discapacidad >= 65%")] else []
    let e2 := match incr25 with
      | some g => [("incremento_discapacidad_25_65", PyVal.str (g ++ "%"))]
      | none => []
    let e3 := match incr50 with
      | some g =>
        [("incremento_matricula_completa_discapacidad", PyVal.str (g ++ "%"))]
      | none => []
    let es := e1 ++ e2 ++ e3
    if es.isEmpty then .ok (.str "No detectado") else .ok (.dict es)
  else .ok (.str "No detectado")

/-- Lines 400–432: `extract_deadlines`.  `contentOpt` is the deadline
section content when either fallback produced a non-empty one; `dates` the
`findall` date list; `uni`/`noUni` the role-specific captures.  When no
content was found the rule returns the status sentinel dict. -/
def extract_deadlines (contentOpt : Option String) (dates : List String)
    (uni noUni : Option String) : Except String PyVal :=
  match contentOpt with
  | some content =>
    let contentClean := clean_text content
    .ok (.dict ([("fechas_encontradas", PyVal.list (dates.map PyVal.str))] ++
      optEntry uni "universitarios" ++
      optEntry noUni "no_universitarios" ++
      [("texto_extracto", PyVal.str (String.mk (contentClean.data.take 200)))]))
  | none => .ok (.dict [("status", PyVal.str "No detectado")])

/-- The outcome of every regex search performed while building one Document
Record (lines 451–464): each field holds the captured group(s) of the
corresponding pattern, or `none` when the pattern did not match. -/
structure SearchResults where
  yearHeader : Option String
  yearFile : Option String
  yearFileShort : Option String
  programsSection : Option String
  rentaFija : Option String
  residencia : Option String
  becaBasica : Option String
  variableMin : Option String
  excelenciaRange : Option (String × String)
  has50Euros : Bool
  has125Euros : Bool
  art19Content : Option String
  umbralSec : Fin 3 → Option (List (String × String))
  patrimonioSection : Bool
  fincasUrbanas : Option String
  construccionesRusticas : Option String
  fincasRusticas : Option String
  capitalMobiliario : Option String
  creditosCompleto : Option String
  creditosParcial : Option String
  notaAcceso : Option String
  areaRates : Fin 5 → Option String
  bracketM1 : Option String
  bracketM2 : Option String
  bracketM3 : Option String
  bracketM4 : Option String
  insularSection : Bool
  supBasico : Option String
  supRemotas : Option String
  interPeninsula : List (String × String)
  fpCanarias : Option String
  dedFamGral : Option String
  dedFamEsp : Option String
  dedDisc33 : Option String
  dedDisc65 : Option String
  dedDiscUni : Option String
  dedHermano : Option String
  dedHuerfano : Option String
  dedMono : Option String
  discSection : Bool
  discReduccion : Bool
  discIncr25 : Option String
  discIncr50 : Option String
  deadlinesContent : Option String
  deadlineDates : List String
  deadlineUni : Option String
  deadlineNoUni : Option String

/-- What Python's `re` module guarantees about the captured groups: a group
captured by a character class consists of characters of that class and is
nonempty, and the filename fallback group has the `20\d{2}-\d{2}` shape. -/
def WF (sr : SearchResults) : Prop :=
  optP yearShortShape sr.yearFileShort ∧
  optP numLocale sr.rentaFija ∧
  optP numLocale sr.residencia ∧
  optP numLocale sr.becaBasica ∧
  optP numLocale sr.variableMin ∧
  (match sr.excelenciaRange with
   | some p => numLocale p.1 ∧ numLocale p.2
   | none => True) ∧
  optP numLocale sr.fincasUrbanas ∧
  optP numLocale sr.construccionesRusticas ∧
  optP numLocale sr.fincasRusticas ∧
  optP numLocale sr.capitalMobiliario ∧
  optP digitsOnly sr.creditosCompleto ∧
  optP digitsOnly sr.creditosParcial ∧
  optP numLocale sr.notaAcceso ∧
  (∀ i, optP digitsOnly (sr.areaRates i)) ∧
  optP digitsOnly sr.bracketM1 ∧
  optP digitsOnly sr.bracketM2 ∧
  optP digitsOnly sr.bracketM3 ∧
  optP digitsOnly sr.bracketM4 ∧
  optP numLocale sr.supBasico ∧
  optP numLocale sr.supRemotas ∧
  (∀ p ∈ sr.interPeninsula, numLocale p.1 ∧ numLocale p.2) ∧
  optP numLocale sr.fpCanarias ∧
  optP numLocale sr.dedFamGral ∧
  optP numLocale sr.dedFamEsp ∧
  optP numLocale sr.dedDisc33 ∧
  optP numLocale sr.dedDisc65 ∧
  optP numLocale sr.dedDiscUni ∧
  optP numLocale sr.dedHermano ∧
  optP digitsOnly sr.dedHuerfano ∧
  optP numLocale sr.dedMono ∧
  optP digitsOnly sr.discIncr25 ∧
  optP digitsOnly sr.discIncr50 ∧
  (∀ i ps, sr.umbralSec i = some ps → ∀ p ∈ ps, numLocale p.2)

/-- The search outcome in which no pattern matched anywhere. -/
def noMatches : SearchResults :=
  { yearHeader := none, yearFile := none, yearFileShort := none
    programsSection := none
    rentaFija := none, residencia := none, becaBasica := none
    variableMin := none, excelenciaRange := none
    has50Euros := false, has125Euros := false
    art19Content := none, umbralSec := fun _ => none
    patrimonioSection := false
    fincasUrbanas := none, construccionesRusticas := none
    fincasRusticas := none, capitalMobiliario := none
    creditosCompleto := none, creditosParcial := none, notaAcceso := none
    areaRates := fun _ => none
    bracketM1 := none, bracketM2 := none, bracketM3 := none, bracketM4 := none
    insularSection := false
    supBasico := none, supRemotas := none, interPeninsula := []
    fpCanarias := none
    dedFamGral := none, dedFamEsp := none, dedDisc33 := none
    dedDisc65 := none, dedDiscUni := none, dedHermano := none
    dedHuerfano := none, dedMono := none
    discSection := false, discReduccion := false
    discIncr25 := none, discIncr50 := none
    deadlinesContent := none, deadlineDates := []
    deadlineUni := none, deadlineNoUni := none }

/-- One Document Record (the `info` dict of lines 451–464). -/
structure Record where
  fichero : String
  curso_academico : String
  programas_educativos : String
  cuantia_renta_fija : String
  cuantia_residencia : String
  beca_basica : String
  cuantia_variable_minima : String
  excelencia_min : String
  excelencia_max : String
  excelencia_tramos : PyVal
  umbrales_renta : PyVal
  umbrales_patrimonio : PyVal
  requisitos_academicos : PyVal
  suplementos_insulares : PyVal
  deducciones_renta : PyVal
  discapacidad : PyVal
  plazos_solicitud : PyVal

/-- Lines 443–464: build one Document Record from a document's search
outcomes. -/
def build_record (fichero : String) (sr : SearchResults) :
    Except String Record := do
  let year ← extract_academic_year sr.yearHeader sr.yearFile sr.yearFileShort
  let programas ← extract_programs sr.programsSection
  let amounts ← extract_amounts sr.rentaFija sr.residencia sr.becaBasica
    sr.variableMin sr.excelenciaRange sr.has50Euros sr.has125Euros
  let tramos ← extract_excellence_brackets sr.bracketM1 sr.bracketM2
    sr.bracketM3 sr.bracketM4
  let umbrales ← extract_thresholds sr.art19Content sr.umbralSec
  let patrimonio ← extract_patrimonio_thresholds sr.patrimonioSection
    sr.fincasUrbanas sr.construccionesRusticas sr.fincasRusticas
    sr.capitalMobiliario
  let requisitos ← extract_academic_requirements sr.creditosCompleto
    sr.creditosParcial sr.notaAcceso sr.areaRates
  let suplementos ← extract_insular_supplements sr.insularSection
    sr.supBasico sr.supRemotas sr.interPeninsula sr.fpCanarias
  let deducciones ← extract_income_deductions sr.dedFamGral sr.dedFamEsp
    sr.dedDisc33 sr.dedDisc65 sr.dedDiscUni sr.dedHermano sr.dedHuerfano
    sr.dedMono
  let disc ← extract_disability_provisions sr.discSection sr.discReduccion
    sr.discIncr25 sr.discIncr50
  let plazos ← extract_deadlines sr.deadlinesContent sr.deadlineDates
    sr.deadlineUni sr.deadlineNoUni
  .ok { fichero := fichero
        curso_academico := year
        programas_educativos := programas
        cuantia_renta_fija := amounts.cuantia_renta_fija
        cuantia_residencia := amounts.cuantia_residencia
        beca_basica := amounts.beca_basica
        cuantia_variable_minima := amounts.cuantia_variable_minima
        excelencia_min := amounts.excelencia_min
        excelencia_max := amounts.excelencia_max
        excelencia_tramos := tramos
        umbrales_renta := umbrales
        umbrales_patrimonio := patrimonio
        requisitos_academicos := requisitos
        suplementos_insulares := suplementos
        deducciones_renta := deducciones
        discapacidad := disc
        plazos_solicitud := plazos }

/-- The Document Record in which every field holds its sentinel default. -/
def sentinelRecord (fichero : String) : Record :=
  { fichero := fichero
    curso_academico := "Desconocido"
    programas_educativos := "No detectado"
    cuantia_renta_fija := "No detectado"
    cuantia_residencia := "No detectado"
    beca_basica := "No detectado"
    cuantia_variable_minima := "60,00"
    excelencia_min := "No detectado"
    excelencia_max := "No detectado"
    excelencia_tramos := .str "No detectado"
    umbrales_renta := .str "No detectado"
    umbrales_patrimonio := .str "No detectado"
    requisitos_academicos := .str "No detectado"
    suplementos_insulares := .str "No detectado"
    deducciones_renta := .str "No detectado"
    discapacidad := .str "No detectado"
    plazos_solicitud := .dict [("status", .str "No detectado")] }

/-- The euro amounts of the excellence bracket table: the values stored
under the key `cuantia_euros`. -/
def bracketAmounts : PyVal → List PyVal
  | .list bs => bs.filterMap (fun b =>
      match b with
      | .dict es => es.lookup "cuantia_euros"
      | _ => none)
  | _ => []

/-- The monetary limits of the income-threshold field: the per-family-size
amounts of the keyed `Umbral i` encoding, and the `umbral_1`–`umbral_3`
values of the row-table encoding (the member count is not monetary). -/
def thresholdValues : PyVal → List PyVal
  | .dict es => es.flatMap (fun p =>
      match p.2 with
      | .dict tv => tv.map Prod.snd
      | .list rows => rows.flatMap (fun row =>
          match row with
          | .dict fs => fs.filterMap (fun f =>
              if f.1 == "umbral_1" || f.1 == "umbral_2" || f.1 == "umbral_3"
              then some f.2 else none)
          | _ => [])
      | _ => [])
  | _ => []

/-- The values of a flat mapping field (asset thresholds). -/
def dictValues : PyVal → List PyVal
  | .dict es => es.map Prod.snd
  | _ => []

/-- The monetary deduction values (the orphan entry is a percentage, not an
amount). -/
def deductionValues : PyVal → List PyVal
  | .dict es => es.filterMap (fun p =>
      if p.1 == "deduccion_huerfano_porcentaje" then none else some p.2)
  | _ => []

/-- Every monetary field of a Document Record: the six named amounts, the
excellence-bracket amounts, the income-threshold and asset-threshold
values, and the deduction values. -/
def monetaryFields (r : Record) : List PyVal :=
  [.str r.cuantia_renta_fija, .str r.cuantia_residencia,
   .str r.beca_basica, .str r.cuantia_variable_minima,
   .str r.excelencia_min, .str r.excelencia_max] ++
  bracketAmounts r.excelencia_tramos ++
  thresholdValues r.umbrales_renta ++
  dictValues r.umbrales_patrimonio ++
  deductionValues r.deducciones_renta

end Extractor

namespace Halluc
/-! Embedding of src/hallucination_evaluator.py: the synthesis of the
classifier premise text from a Document Record (`generar_texto_becas`,
lines 23–66).  Dictionary access, membership and iteration follow Python's
dynamic semantics on `PyVal`, raising (`Except.error`) exactly where Python
raises. -/

/-- Python `value[key]` on a dynamically typed value. -/
def pyDictGet : PyVal → String → Except String PyVal
  | .dict es, k =>
    match es.lookup k with
    | some v => .ok v
    | none => .error ("KeyError: " ++ k)
  | .str _, _ => .error "TypeError: string indices must be integers"
  | _, _ => .error "TypeError: value is not subscriptable"

/-- Python `key in value`: dict-key membership, substring test on strings,
false otherwise (the sources only apply it to dicts and strings). -/
def pyContains : PyVal → String → Bool
  | .dict es, k => es.any (fun p => p.1 == k)
  | .str s, k => Extractor.containsSub k.data s.data
  | _, _ => false

/-- Python `for x in value`: lists iterate their items, dicts their keys,
strings their characters; integers raise. -/
def pyIterate : PyVal → Except String (List PyVal)
  | .list xs => .ok xs
  | .dict es => .ok (es.map (fun p => PyVal.str p.1))
  | .str s => .ok (s.data.map (fun c => PyVal.str (String.mk [c])))
  | .int _ => .error "TypeError: int object is not iterable"

/-- Python `value.get(key, default)`: only dicts have `.get`. -/
def pyGetDefault : PyVal → String → PyVal → Except String PyVal
  | .dict es, k, d => .ok ((es.lookup k).getD d)
  | _, _, _ => .error "AttributeError: object has no attribute get"

mutual
/-- Python `str(value)` as used by f-string interpolation (the reprs of
nested dicts and lists are only reached for malformed records). -/
def pyFormat : PyVal → String
  | .str s => s
  | .int n => toString n
  | .list xs => "[" ++ pyFormatList xs ++ "]"
  | .dict es => "\x7b" ++ pyFormatEntries es ++ "\x7d"

def pyFormatList : List PyVal → String
  | [] => ""
  | [x] => pyFormat x
  | x :: y :: xs => pyFormat x ++ ", " ++ pyFormatList (y :: xs)

def pyFormatEntries : List (String × PyVal) → String
  | [] => ""
  | [(k, v)] => k ++ ": " ++ pyFormat v
  | (k, v) :: e :: es => k ++ ": " ++ pyFormat v ++ ", " ++ pyFormatEntries (e :: es)
end

/-- Python `s.rstrip(", ")` (line 56). -/
def rstripCommaSpace (s : String) : String :=
  String.mk ((s.data.reverse.dropWhile (fun c => c = ',' || c = ' ')).reverse)

/-- Lines 23–66: `generar_texto_becas` — serialize a Document Record into
the premise text.  Every subscript of a nested field is a dynamic access
that raises when the field holds its string sentinel or lacks the key. -/
def generar_texto_becas (datos : Extractor.Record) : Except String String := do
  let t1 := "Fichero: " ++ datos.fichero ++ ".\nCurso académico: " ++
    datos.curso_academico ++ ".\nProgramas educativos: " ++
    datos.programas_educativos ++ "\nCuantía renta fija: " ++
    datos.cuantia_renta_fija ++ " euros.\nCuantía residencia: " ++
    datos.cuantia_residencia ++ " euros.\nBeca básica: " ++
    datos.beca_basica ++ " euros.\nCuantía variable mínima: " ++
    datos.cuantia_variable_minima ++ " euros.\nExcelencia mínima: " ++
    datos.excelencia_min ++ " euros.\nExcelencia máxima: " ++
    datos.excelencia_max ++ " euros.\nTramos de excelencia: "
  let tramos ← pyIterate datos.excelencia_tramos
  let t2 ← tramos.foldlM (fun acc tramo => do
    let nm ← pyDictGet tramo "nota_media"
    let ce ← pyDictGet tramo "cuantia_euros"
    pure (acc ++ "Nota media " ++ pyFormat nm ++ " recibe " ++ pyFormat ce ++
      " euros. ")) t1
  let umb := datos.umbrales_renta
  let t3 ←
    if pyContains umb "Umbral 1" then do
      let u1 ← pyDictGet umb "Umbral 1"
      let u1un ← pyDictGet u1 "un"
      let u1dos ← pyDictGet u1 "dos"
      let u2 ← pyDictGet umb "Umbral 2"
      let u2un ← pyDictGet u2 "un"
      let u2dos ← pyDictGet u2 "dos"
      pure (t2 ++ "\nLímites Umbral 1: " ++ pyFormat u1un ++
        " (1 miembro), " ++ pyFormat u1dos ++ " (2 miembros), ..." ++
        "\nLímites Umbral 2: " ++ pyFormat u2un ++ " (1 miembro), " ++
        pyFormat u2dos ++ " (2 miembros), ...")
    else if pyContains umb "tabla" then do
      let tabla ← pyDictGet umb "tabla"
      let items ← pyIterate tabla
      let sAcc ← items.foldlM (fun acc item => do
        let m ← pyGetDefault item "miembros" (PyVal.str "?")
        let u1 ← pyGetDefault item "umbral_1" (PyVal.str "?")
        let u2 ← pyGetDefault item "umbral_2" (PyVal.str "?")
        let u3 ← pyGetDefault item "umbral_3" (PyVal.str "?")
        pure (acc ++ pyFormat m ++ " miembros (" ++ pyFormat u1 ++ "/" ++
          pyFormat u2 ++ "/" ++ pyFormat u3 ++ "), "))
        (t2 ++ "\nUmbrales de renta por familia: ")
      pure (rstripCommaSpace sAcc ++ ".")
    else pure t2
  let pat ← pyDictGet datos.umbrales_patrimonio "fincas_urbanas_limite"
  let req ← pyDictGet datos.requisitos_academicos "creditos_tiempo_completo"
  let sup ← pyDictGet datos.suplementos_insulares "suplemento_insular_basico"
  let ded ← pyDictGet datos.deducciones_renta
    "deduccion_familia_numerosa_especial"
  let pla ← pyDictGet datos.plazos_solicitud "texto_extracto"
  pure (t3 ++ "\nUmbrales de patrimonio: Límite urbanas " ++ pyFormat pat ++
    ".\nRequisitos académicos: Créditos completo " ++ pyFormat req ++
    ". \nSuplementos insulares: Básico " ++ pyFormat sup ++
    ". \nDeducciones de renta: Familia numerosa especial " ++ pyFormat ded ++
    ". \nPlazos de solicitud: " ++ pyFormat pla)

end Halluc

/-! ### Library lemmas about the embedded Python primitives -/

namespace Py

theorem runsPAux_sound (p : Char → Bool) :
    ∀ cs acc : List Char, acc.all p →
      ∀ r ∈ runsPAux p cs acc, r ≠ [] ∧ r.all p
  | [], acc, hacc, r, hr => by
    rw [runsPAux] at hr
    by_cases h : acc = []
    · simp [h] at hr
    · simp only [h, if_neg, not_false_iff, if_false, List.mem_singleton] at hr
      subst hr
      exact ⟨by simpa using h, by simpa using hacc⟩
  | c :: cs, acc, hacc, r, hr => by
    rw [runsPAux] at hr
    by_cases hc : p c
    · simp only [hc, if_pos] at hr
      exact runsPAux_sound p cs (c :: acc) (by simp [hc, hacc]) r hr
    · simp only [hc, Bool.false_eq_true, if_false] at hr
      by_cases h : acc = []
      · simp only [h, if_pos] at hr
        exact runsPAux_sound p cs [] rfl r hr
      · simp only [h, if_neg, not_false_iff, if_false, List.mem_cons] at hr
        rcases hr with hr | hr
        · subst hr
          exact ⟨by simpa using h, by simpa using hacc⟩
        · exact runsPAux_sound p cs [] rfl r hr

theorem runsP_sound (p : Char → Bool) (cs : List Char) :
    ∀ r ∈ runsP p cs, r ≠ [] ∧ r.all p :=
  runsPAux_sound p cs [] rfl

theorem char_toNat_ofNat (n : Nat) (h : n < 55296) : (Char.ofNat n).toNat = n := by
  unfold Char.ofNat
  rw [dif_pos (Or.inl h : Nat.isValidChar n)]
  rfl

theorem char_eq_iff (a b : Char) : (a = b) ↔ a.toNat = b.toNat := by
  constructor
  · intro h; rw [h]
  · intro h
    rcases a with ⟨⟨av, hav⟩, ha⟩
    rcases b with ⟨⟨bv, hbv⟩, hb⟩
    simp only [Char.toNat, UInt32.toNat] at h
    subst h
    rfl

theorem isSpace_val (c : Char) :
    isSpace c = (decide (c.toNat = 32) || decide (c.toNat = 9) ||
      decide (c.toNat = 10) || decide (c.toNat = 13) ||
      decide (c.toNat = 11) || decide (c.toNat = 12)) := by
  simp only [isSpace, char_eq_iff]
  rfl

/-- ASCII case folding maps no character onto whitespace, so lowercasing
commutes with tokenization. -/
theorem isSpace_toLower (c : Char) : isSpace c.toLower = isSpace c := by
  unfold Char.toLower
  by_cases h : c.toNat ≥ 65 ∧ c.toNat ≤ 90
  · rw [if_pos h]
    rw [isSpace_val, isSpace_val, char_toNat_ofNat _ (by omega)]
    obtain ⟨h1, h2⟩ := h
    have hl : (decide (c.toNat + 32 = 32) || decide (c.toNat + 32 = 9) ||
        decide (c.toNat + 32 = 10) || decide (c.toNat + 32 = 13) ||
        decide (c.toNat + 32 = 11) || decide (c.toNat + 32 = 12)) = false := by
      simp only [Bool.or_eq_false_iff, decide_eq_false_iff_not]
      omega
    have hr : (decide (c.toNat = 32) || decide (c.toNat = 9) ||
        decide (c.toNat = 10) || decide (c.toNat = 13) ||
        decide (c.toNat = 11) || decide (c.toNat = 12)) = false := by
      simp only [Bool.or_eq_false_iff, decide_eq_false_iff_not]
      omega
    rw [hl, hr]
  · rw [if_neg h]

theorem runsPAux_map (p : Char → Bool) (f : Char → Char)
    (hf : ∀ c, p (f c) = p c) :
    ∀ cs acc : List Char,
      runsPAux p (cs.map f) (acc.map f) = (runsPAux p cs acc).map (List.map f)
  | [], acc => by
    rw [List.map_nil, runsPAux, runsPAux]
    by_cases h : acc = []
    · subst h
      simp
    · rw [if_neg (by simpa using h), if_neg h]
      simp [List.map_reverse]
  | c :: cs, acc => by
    rw [List.map_cons, runsPAux, runsPAux, hf c]
    by_cases hc : p c = true
    · simp only [hc, if_true]
      have h := runsPAux_map p f hf cs (c :: acc)
      simpa using h
    · simp only [hc, if_false, Bool.false_eq_true]
      by_cases h : acc = []
      · subst h
        simp only [List.map_nil, if_true]
        have := runsPAux_map p f hf cs []
        simpa using this
      · rw [if_neg (by simpa using h), if_neg h, List.map_cons]
        have := runsPAux_map p f hf cs []
        simp only [List.map_nil] at this
        rw [this, List.map_reverse]

/-- Tokenizing the lowercased text tokenizes the text and lowercases each
token. -/
theorem pySplit_lower (s : String) :
    pySplit (pyLower s) =
      (pySplit s).map (fun t => String.mk (t.data.map Char.toLower)) := by
  have h := runsPAux_map (fun c => !isSpace c) Char.toLower
    (fun c => by simp only [isSpace_toLower]) s.data []
  simp only [List.map_nil] at h
  simp only [pySplit, pyLower, runsP]
  rw [h, List.map_map, List.map_map]
  rfl

end Py

/-! ### Claim theorems: the evaluator metrics -/

/-- C10: every element of the set returned by the evaluator's number
extractor is a nonempty string of decimal digits (separators are removed
before the digits-only test, so separator-only substrings are dropped);
locale variants of one amount collapse to the same single element; the empty
input yields the empty set. -/
theorem C10_extract_numbers_invariant :
    (∀ t : String, ∀ s ∈ Evaluador.extract_numbers t,
        s ≠ "" ∧ s.data.all Char.isDigit) ∧
    Evaluador.extract_numbers "1.600" = {"1600"} ∧
    Evaluador.extract_numbers "1,600" = {"1600"} ∧
    Evaluador.extract_numbers "1600" = {"1600"} ∧
    Evaluador.extract_numbers ".,., euros" = ∅ ∧
    Evaluador.extract_numbers "" = ∅ := by
  refine ⟨?_, by decide, by decide, by decide, by decide, by decide⟩
  intro t s hs
  simp only [Evaluador.extract_numbers, List.mem_toFinset, List.mem_filterMap]
    at hs
  obtain ⟨n, _, hif⟩ := hs
  by_cases hcond : (n.filter (fun c => !(c = '.' || c = ','))) ≠ [] ∧
      (n.filter (fun c => !(c = '.' || c = ','))).all Char.isDigit
  · rw [if_pos hcond] at hif
    obtain ⟨hne, hdig⟩ := hcond
    have hdata : s.data = n.filter (fun c => !(c = '.' || c = ',')) := by
      rw [← Option.some_inj.mp hif]
    constructor
    · intro hempty
      rw [hempty] at hdata
      exact hne hdata.symm
    · rw [hdata]
      exact hdig
  · rw [if_neg hcond] at hif
    exact absurd hif (by simp)

/-- C10 witness at a concrete extraction. -/
theorem C10_extract_numbers_invariant_witness :
    "1600" ≠ "" ∧ "1600".data.all Char.isDigit :=
  C10_extract_numbers_invariant.1 "1.600" "1600" (by decide)

/-- C1: the fact recall is intersection over restricted reference set times
100, is 0 when the restricted reference set is empty, and is 100 when the
summary's number set covers a nonempty restricted reference set. -/
theorem C1_fact_recall (text : String) (target_facts : Finset String) :
    (Evaluador.key_amounts target_facts = ∅ →
      Evaluador.recall_score text target_facts = 0) ∧
    (Evaluador.key_amounts target_facts ≠ ∅ →
      Evaluador.recall_score text target_facts =
        ((Evaluador.extract_numbers text ∩
            Evaluador.key_amounts target_facts).card : ℚ) /
          ((Evaluador.key_amounts target_facts).card : ℚ) * 100) ∧
    (Evaluador.key_amounts target_facts ≠ ∅ →
      Evaluador.key_amounts target_facts ⊆ Evaluador.extract_numbers text →
      Evaluador.recall_score text target_facts = 100) := by
  refine ⟨?_, ?_, ?_⟩
  · intro h
    rw [Evaluador.recall_score, if_neg (by simp [h])]
  · intro h
    rw [Evaluador.recall_score, if_pos h]
    rfl
  · intro h hsub
    rw [Evaluador.recall_score, if_pos h, Evaluador.recalled_nums,
      Finset.inter_eq_right.mpr hsub]
    have hc : ((Evaluador.key_amounts target_facts).card : ℚ) ≠ 0 := by
      simp only [ne_eq, Nat.cast_eq_zero, Finset.card_eq_zero]
      exact h
    rw [div_self hc, one_mul]

/-- C1 witness at a concrete record. -/
theorem C1_fact_recall_witness :
    Evaluador.key_amounts ({"300", "1600"} : Finset String) ≠ ∅ ∧
    Evaluador.key_amounts ({"300", "1600"} : Finset String) ⊆
      Evaluador.extract_numbers "a 300 euro grant and a 1600 euro allowance" ∧
    Evaluador.recall_score "a 300 euro grant and a 1600 euro allowance"
      ({"300", "1600"} : Finset String) = 100 :=
  ⟨by decide, by decide,
    (C1_fact_recall _ _).2.2 (by decide) (by decide)⟩

/-- C5: the hallucination count of a scored record is the number of distinct
normalized numbers of the generated text that are absent from the reference
set, single-digit numbers excluded; on the reference set of scenario A, the
hallucinated set is exactly the extra number and the count is 1. -/
theorem C5_hallucination_count :
    (∀ (year model : String) (target_facts : Finset String)
        (r : Evaluador.GenRecord),
      (Evaluador.eval_entry year model target_facts r).Hallucinations_Count =
        (((Evaluador.extract_numbers r.text).filter
            (fun n => 2 ≤ n.length)) \ target_facts).card) ∧
    Evaluador.hallucinated_nums
        "Students receive 300 and 1600 euros plus 9999 extra."
        {"300", "1600"} = {"9999"} ∧
    (Evaluador.eval_entry "2023-2024" "m" {"300", "1600"}
        ⟨false, "Students receive 300 and 1600 euros plus 9999 extra.",
          0, 0⟩).Hallucinations_Count = 1 := by
  refine ⟨?_, by decide, by decide⟩
  intro year model target_facts r
  show (Evaluador.hallucinated_nums r.text target_facts).card = _
  congr 1
  ext x
  simp only [Evaluador.hallucinated_nums, Finset.mem_filter, Finset.mem_sdiff]
  constructor
  · rintro ⟨⟨h1, h2⟩, h3⟩
    exact ⟨⟨h1, by omega⟩, h2⟩
  · rintro ⟨⟨h1, h3⟩, h2⟩
    exact ⟨⟨h1, h2⟩, by omega⟩

/-- C8: the repetition rate is 1 minus distinct-over-total lowercased tokens
(as a percentage), is exactly 0 for empty or whitespace-only text, and is 0
when every lowercased token is distinct. -/
theorem C8_repetition_rate (text : String) :
    (Py.pySplit text = [] → Evaluador.calculate_repetition_rate text = 0) ∧
    (Py.pySplit text ≠ [] →
      Evaluador.calculate_repetition_rate text * 100 =
        (1 - ((Py.pySplit (Py.pyLower text)).dedup.length : ℚ) /
            ((Py.pySplit (Py.pyLower text)).length : ℚ)) * 100) ∧
    ((Py.pySplit (Py.pyLower text)).Nodup →
      Evaluador.calculate_repetition_rate text = 0) := by
  refine ⟨?_, ?_, ?_⟩
  · intro h
    rw [Evaluador.calculate_repetition_rate, if_pos h]
  · intro h
    rw [Evaluador.calculate_repetition_rate, if_neg h]
  · intro hnd
    by_cases h : Py.pySplit text = []
    · rw [Evaluador.calculate_repetition_rate, if_pos h]
    · rw [Evaluador.calculate_repetition_rate, if_neg h]
      have hlen : (Py.pySplit (Py.pyLower text)).length ≠ 0 := by
        rw [Py.pySplit_lower]
        simp only [List.length_map, ne_eq, List.length_eq_zero]
        exact h
      show (1 : ℚ) - ((Py.pySplit (Py.pyLower text)).dedup.length : ℚ) /
          ((Py.pySplit (Py.pyLower text)).length : ℚ) = 0
      rw [List.dedup_eq_self.mpr hnd, div_self (by exact_mod_cast hlen)]
      ring

/-- C8 witness: a two-token text with distinct tokens has rate 0, and the
empty and whitespace-only texts have rate 0. -/
theorem C8_repetition_rate_witness :
    (Py.pySplit (Py.pyLower "basic grant")).Nodup ∧
    Evaluador.calculate_repetition_rate "basic grant" = 0 ∧
    Evaluador.calculate_repetition_rate "" = 0 ∧
    Evaluador.calculate_repetition_rate " \t " = 0 :=
  ⟨by decide, (C8_repetition_rate "basic grant").2.2 (by decide),
    (C8_repetition_rate "").1 (by decide),
    (C8_repetition_rate " \t ").1 (by decide)⟩

theorem mem_pyKeys {m : String} :
    ∀ {l : List String}, m ∈ l → m ∈ Evaluador.pyKeys l
  | [], h => absurd h (List.not_mem_nil m)
  | x :: xs, h => by
    rw [Evaluador.pyKeys]
    by_cases hx : m = x
    · subst hx
      exact List.mem_cons_self _ _
    · rcases List.mem_cons.mp h with h | h
      · exact absurd h hx
      · refine List.mem_cons_of_mem _ ?_
        rw [List.mem_filter]
        exact ⟨mem_pyKeys h, by simpa using hx⟩

/-- C9 (amended): each numeric column of a model's summary row equals the
arithmetic mean, rounded to two decimals, of that column over exactly the
detail rows whose Model field equals that identifier. -/
theorem C9_aggregation (entries : List Evaluador.EvalEntry) (m : String)
    (hm : m ∈ entries.map (fun e => e.Model)) :
    ∃ s ∈ Evaluador.model_comparison entries,
      s.Model = m ∧
      s.Time_s = Evaluador.round2
        (((entries.filter (fun e => e.Model == m)).map
            (fun e => e.Time_s)).sum /
          ((entries.filter (fun e => e.Model == m)).length : ℚ)) ∧
      s.Fact_Recall_Pct = Evaluador.round2
        (((entries.filter (fun e => e.Model == m)).map
            (fun e => e.Fact_Recall_Pct)).sum /
          ((entries.filter (fun e => e.Model == m)).length : ℚ)) ∧
      s.Hallucinations_Count = Evaluador.round2
        (((entries.filter (fun e => e.Model == m)).map
            (fun e => (e.Hallucinations_Count : ℚ))).sum /
          ((entries.filter (fun e => e.Model == m)).length : ℚ)) ∧
      s.Repetition_Pct = Evaluador.round2
        (((entries.filter (fun e => e.Model == m)).map
            (fun e => e.Repetition_Pct)).sum /
          ((entries.filter (fun e => e.Model == m)).length : ℚ)) ∧
      s.Word_Count = Evaluador.round2
        (((entries.filter (fun e => e.Model == m)).map
            (fun e => (e.Word_Count : ℚ))).sum /
          ((entries.filter (fun e => e.Model == m)).length : ℚ)) := by
  have hk : m ∈ Evaluador.pyKeys (entries.map (fun e => e.Model)) :=
    mem_pyKeys hm
  refine ⟨_, List.mem_map_of_mem _ hk, rfl, ?_, ?_, ?_, ?_, ?_⟩ <;>
    · simp only [Evaluador.colMean]
      rw [List.length_map]

/-- C9 witness at a singleton detail list. -/
theorem C9_aggregation_witness :
    "m" ∈ ([⟨"y", "m", 1, 2, 3, 4, 5, 6⟩] :
        List Evaluador.EvalEntry).map (fun e => e.Model) ∧
    ∃ s ∈ Evaluador.model_comparison
        ([⟨"y", "m", 1, 2, 3, 4, 5, 6⟩] : List Evaluador.EvalEntry),
      s.Model = "m" ∧
      s.Time_s = Evaluador.round2
        ((([(⟨"y", "m", 1, 2, 3, 4, 5, 6⟩ : Evaluador.EvalEntry)].filter
            (fun e => e.Model == "m")).map
            (fun e => e.Time_s)).sum /
          ((([(⟨"y", "m", 1, 2, 3, 4, 5, 6⟩ : Evaluador.EvalEntry)].filter
            (fun e => e.Model == "m"))).length : ℚ)) ∧
      s.Fact_Recall_Pct = Evaluador.round2
        ((([(⟨"y", "m", 1, 2, 3, 4, 5, 6⟩ : Evaluador.EvalEntry)].filter
            (fun e => e.Model == "m")).map
            (fun e => e.Fact_Recall_Pct)).sum /
          ((([(⟨"y", "m", 1, 2, 3, 4, 5, 6⟩ : Evaluador.EvalEntry)].filter
            (fun e => e.Model == "m"))).length : ℚ)) ∧
      s.Hallucinations_Count = Evaluador.round2
        ((([(⟨"y", "m", 1, 2, 3, 4, 5, 6⟩ : Evaluador.EvalEntry)].filter
            (fun e => e.Model == "m")).map
            (fun e => (e.Hallucinations_Count : ℚ))).sum /
          ((([(⟨"y", "m", 1, 2, 3, 4, 5, 6⟩ : Evaluador.EvalEntry)].filter
            (fun e => e.Model == "m"))).length : ℚ)) ∧
      s.Repetition_Pct = Evaluador.round2
        ((([(⟨"y", "m", 1, 2, 3, 4, 5, 6⟩ : Evaluador.EvalEntry)].filter
            (fun e => e.Model == "m")).map
            (fun e => e.Repetition_Pct)).sum /
          ((([(⟨"y", "m", 1, 2, 3, 4, 5, 6⟩ : Evaluador.EvalEntry)].filter
            (fun e => e.Model == "m"))).length : ℚ)) ∧
      s.Word_Count = Evaluador.round2
        ((([(⟨"y", "m", 1, 2, 3, 4, 5, 6⟩ : Evaluador.EvalEntry)].filter
            (fun e => e.Model == "m")).map
            (fun e => (e.Word_Count : ℚ))).sum /
          ((([(⟨"y", "m", 1, 2, 3, 4, 5, 6⟩ : Evaluador.EvalEntry)].filter
            (fun e => e.Model == "m"))).length : ℚ)) :=
  ⟨by simp, C9_aggregation _ "m" (by simp)⟩

/-- C9 counterexample: with hallucination counts 1, 1, 2 for one model, the
summary value is the rounded 1.33, not the exact mean 4/3. -/
theorem C9_aggregation_counterexample :
    (Evaluador.model_comparison
        [⟨"y1", "m", 0, 0, 0, 1, 0, 0⟩, ⟨"y2", "m", 0, 0, 0, 1, 0, 0⟩,
         ⟨"y3", "m", 0, 0, 0, 2, 0, 0⟩]).map
        (fun s => s.Hallucinations_Count) = [133/100] ∧
    ((([⟨"y1", "m", 0, 0, 0, 1, 0, 0⟩, ⟨"y2", "m", 0, 0, 0, 1, 0, 0⟩,
         ⟨"y3", "m", 0, 0, 0, 2, 0, 0⟩] : List Evaluador.EvalEntry).filter
        (fun e => e.Model == "m")).map
        (fun e => (e.Hallucinations_Count : ℚ))).sum /
      (((([⟨"y1", "m", 0, 0, 0, 1, 0, 0⟩, ⟨"y2", "m", 0, 0, 0, 1, 0, 0⟩,
         ⟨"y3", "m", 0, 0, 0, 2, 0, 0⟩] : List Evaluador.EvalEntry).filter
        (fun e => e.Model == "m"))).length : ℚ) = 4/3 ∧
    (133 : ℚ)/100 ≠ 4/3 := by
  refine ⟨?_, ?_, by norm_num⟩
  · simp only [Evaluador.model_comparison, Evaluador.pyKeys,
      Evaluador.colMean, List.map_cons, List.map_nil, List.filter,
      List.mem_cons]
    norm_num
    simp only [Evaluador.round2, Evaluador.roundHalfEven]
    norm_num [Int.floor_eq_iff]
  · simp only [List.filter, List.map_cons, List.map_nil]
    norm_num

theorem assoc_nodup_eq {α : Type} :
    ∀ {l : List (String × α)}, (l.map Prod.fst).Nodup →
      ∀ {k : String} {a b : α}, (k, a) ∈ l → (k, b) ∈ l → a = b
  | [], _, _, _, _, ha, _ => absurd ha (List.not_mem_nil _)
  | (k', x) :: rest, hnd, k, a, b, ha, hb => by
    rw [List.map_cons, List.nodup_cons] at hnd
    obtain ⟨hk', hrest⟩ := hnd
    rcases List.mem_cons.mp ha with ha | ha <;>
      rcases List.mem_cons.mp hb with hb | hb
    · rw [Prod.mk.injEq] at ha hb
      rw [ha.2, hb.2]
    · exfalso
      have h1 : k = k' := congrArg Prod.fst ha
      have hmem : k ∈ List.map Prod.fst rest :=
        List.mem_map_of_mem Prod.fst hb
      rw [h1] at hmem
      exact hk' hmem
    · exfalso
      have h1 : k = k' := congrArg Prod.fst hb
      have hmem : k ∈ List.map Prod.fst rest :=
        List.mem_map_of_mem Prod.fst ha
      rw [h1] at hmem
      exact hk' hmem
    · exact assoc_nodup_eq hrest ha hb

/-- C3: a generation record carrying the error key produces no evaluation
row for its (year, model) cell, in either evaluator. -/
theorem C3_error_records_excluded
    (facts : String → Finset String)
    (gens : List (String × List (String × Evaluador.GenRecord)))
    (year model : String) (models : List (String × Evaluador.GenRecord))
    (r : Evaluador.GenRecord)
    (hyears : (gens.map Prod.fst).Nodup)
    (hmodels : (models.map Prod.fst).Nodup)
    (hy : (year, models) ∈ gens)
    (hm : (model, r) ∈ models)
    (herr : r.hasError = true) :
    (∀ e ∈ Evaluador.run_evaluation facts gens,
        ¬(e.Year = year ∧ e.Model = model)) ∧
    (∀ (factYears : List String),
      ∀ e2 ∈ EvaluadorV1.run_evaluation_v1 facts factYears gens,
        ¬(e2.Year = year ∧ e2.Model = model)) := by
  constructor
  · rintro e he ⟨hey, hem⟩
    rw [Evaluador.run_evaluation, List.mem_flatMap] at he
    obtain ⟨ym, hym, hefm⟩ := he
    rw [List.mem_filterMap] at hefm
    obtain ⟨mr, hmr, heq⟩ := hefm
    by_cases herr2 : mr.2.hasError
    · rw [if_pos herr2] at heq
      exact absurd heq (by simp)
    · rw [if_neg herr2] at heq
      have he' := Option.some_inj.mp heq
      have heYear : e.Year = ym.1 := by rw [← he']; rfl
      have heModel : e.Model = mr.1 := by rw [← he']; rfl
      have hy1 : ym.1 = year := by rw [← heYear, hey]
      have hmodels_eq : ym.2 = models := by
        refine assoc_nodup_eq hyears ?_ hy
        rw [← hy1]
        exact hym
      have hmr1 : mr.1 = model := by rw [← heModel, hem]
      have : mr.2 = r := by
        refine assoc_nodup_eq hmodels ?_ hm
        rw [← hmr1, ← hmodels_eq]
        exact hmr
      rw [this] at herr2
      exact herr2 herr
  · rintro factYears e2 he ⟨hey, hem⟩
    rw [EvaluadorV1.run_evaluation_v1, List.mem_flatMap] at he
    obtain ⟨ym, hym, hefm⟩ := he
    by_cases hyf : ym.1 ∈ factYears
    · rw [if_pos hyf, List.mem_filterMap] at hefm
      obtain ⟨mr, hmr, heq⟩ := hefm
      by_cases herr2 : mr.2.hasError
      · rw [if_pos herr2] at heq
        exact absurd heq (by simp)
      · rw [if_neg herr2] at heq
        have he' := Option.some_inj.mp heq
        have heYear : e2.Year = ym.1 := by rw [← he']; rfl
        have heModel : e2.Model = mr.1 := by rw [← he']; rfl
        have hy1 : ym.1 = year := by rw [← heYear, hey]
        have hmodels_eq : ym.2 = models := by
          refine assoc_nodup_eq hyears ?_ hy
          rw [← hy1]
          exact hym
        have hmr1 : mr.1 = model := by rw [← heModel, hem]
        have : mr.2 = r := by
          refine assoc_nodup_eq hmodels ?_ hm
          rw [← hmr1, ← hmodels_eq]
          exact hmr
        rw [this] at herr2
        exact herr2 herr
    · rw [if_neg hyf] at hefm
      exact absurd hefm (List.not_mem_nil _)

/-- C3 witness at a one-cell input whose only record is an error record. -/
theorem C3_error_records_excluded_witness :
    (([("2021-2022", [("gpt2", ⟨true, "", 0, 0⟩)])] :
        List (String × List (String × Evaluador.GenRecord))).map
        Prod.fst).Nodup ∧
    (([("gpt2", (⟨true, "", 0, 0⟩ : Evaluador.GenRecord))]).map
        Prod.fst).Nodup ∧
    (∀ e ∈ Evaluador.run_evaluation (fun _ => ∅)
        [("2021-2022", [("gpt2", ⟨true, "", 0, 0⟩)])],
        ¬(e.Year = "2021-2022" ∧ e.Model = "gpt2")) ∧
    (∀ (factYears : List String),
      ∀ e2 ∈ EvaluadorV1.run_evaluation_v1 (fun _ => ∅) factYears
        [("2021-2022", [("gpt2", ⟨true, "", 0, 0⟩)])],
        ¬(e2.Year = "2021-2022" ∧ e2.Model = "gpt2")) := by
  have h := C3_error_records_excluded (fun _ => ∅)
    [("2021-2022", [("gpt2", ⟨true, "", 0, 0⟩)])]
    "2021-2022" "gpt2" [("gpt2", ⟨true, "", 0, 0⟩)] ⟨true, "", 0, 0⟩
    (by simp) (by simp) (List.mem_singleton.mpr rfl)
    (List.mem_singleton.mpr rfl) rfl
  exact ⟨by simp, by simp, h.1, h.2⟩

namespace Extractor

theorem pyInt_ok {s : String} (h : digitsOnly s) :
    Py.pyInt s =
      .ok ((s.data.foldl (fun n c => n * 10 + (c.toNat - 48)) 0 : Nat) : Int) := by
  rw [Py.pyInt, if_pos ⟨h.1, by simpa using h.2⟩]

theorem digit_ne_dash {c : Char} (h : c.isDigit = true) : c ≠ '-' := by
  intro heq
  subst heq
  simp at h

theorem splitChar_year (a b c d : Char) (ha : a ≠ '-') (hb : b ≠ '-')
    (hc : c ≠ '-') (hd : d ≠ '-') :
    Py.splitChar '-' ['2', '0', a, b, '-', c, d] = [['2', '0', a, b], [c, d]] := by
  simp [Py.splitChar, ha, hb, hc, hd]

theorem extract_academic_year_ok (m1 m2 m3 : Option String)
    (h3 : optP yearShortShape m3) :
    ∃ y, extract_academic_year m1 m2 m3 = .ok y := by
  cases m1 with
  | some y => exact ⟨y, rfl⟩
  | none =>
    cases m2 with
    | some y => exact ⟨y, rfl⟩
    | none =>
      cases m3 with
      | none => exact ⟨"Desconocido", rfl⟩
      | some y =>
        obtain ⟨a, b, c, d, hdata, hda, hdb, hdc, hdd⟩ := h3
        refine ⟨"20" ++ String.mk [a, b] ++ "-20" ++ String.mk [c, d], ?_⟩
        rw [extract_academic_year, hdata,
          splitChar_year a b c d (digit_ne_dash hda) (digit_ne_dash hdb)
            (digit_ne_dash hdc) (digit_ne_dash hdd)]
        rfl

theorem isEmpty_false_ne {α : Type} {l : List α} (h : ¬l.isEmpty = true) :
    l ≠ [] := by
  simpa using h

theorem rowMatch_spec {line : String} {g1 g2 g3 : String} {g4 : Option String}
    (h : rowMatch line = some (g1, g2, g3, g4)) :
    digitsOnly g1 ∧ amtStr g2 ∧ amtStr g3 ∧ ∀ g, g4 = some g → amtStr g := by
  simp only [rowMatch] at h
  split_ifs at h with h1 h2 h3 h4 h5 h6 <;>
    simp only [Option.some.injEq, Prod.mk.injEq] at h
  · obtain ⟨e1, e2, e3, e4⟩ := h
    refine ⟨?_, ?_, ?_, ?_⟩
    · rw [← e1]
      exact ⟨by simpa using isEmpty_false_ne h1, List.all_takeWhile⟩
    · rw [← e2]
      exact ⟨by simpa using isEmpty_false_ne h3, List.all_takeWhile⟩
    · rw [← e3]
      exact ⟨by simpa using isEmpty_false_ne h5, List.all_takeWhile⟩
    · intro g hg
      rw [← e4] at hg
      simp only [Option.some.injEq] at hg
      rw [← hg]
      simp only [Bool.and_eq_true, Bool.not_eq_true'] at h6
      exact ⟨by simpa using h6.2, List.all_takeWhile⟩
  · obtain ⟨e1, e2, e3, e4⟩ := h
    refine ⟨?_, ?_, ?_, ?_⟩
    · rw [← e1]
      exact ⟨by simpa using isEmpty_false_ne h1, List.all_takeWhile⟩
    · rw [← e2]
      exact ⟨by simpa using isEmpty_false_ne h3, List.all_takeWhile⟩
    · rw [← e3]
      exact ⟨by simpa using isEmpty_false_ne h5, List.all_takeWhile⟩
    · intro g hg
      rw [← e4] at hg
      exact absurd hg (by simp)

theorem takeAmounts_spec :
    ∀ (k : Nat) (rest : List String), ∃ vs,
      takeAmounts rest k = .ok vs ∧ vs.length ≤ k ∧ ∀ v ∈ vs, amtStr v
  | 0, rest => ⟨[], rfl, Nat.le_refl _, by simp⟩
  | k + 1, rest => by
    rw [takeAmounts]
    by_cases hl : looks_like_amount rest 0 = true
    · rw [if_pos hl]
      rw [looks_like_amount] at hl
      rcases h0 : rest.get? 0 with _ | l
      · rw [h0] at hl
        simp at hl
      · rw [h0] at hl
        simp only [Bool.and_eq_true, Bool.not_eq_true'] at hl
        obtain ⟨vs, hvs, hlen, hall⟩ := takeAmounts_spec k rest.tail
        refine ⟨Py.pyStrip l :: vs, ?_, ?_, ?_⟩
        · rw [Py.pyIndex, h0]
          show (takeAmounts rest.tail k).bind _ = _
          rw [hvs]
          rfl
        · simpa using Nat.succ_le_succ hlen
        · intro v hv
          rcases List.mem_cons.mp hv with hv | hv
          · subst hv
            exact ⟨by simpa using hl.1, hl.2⟩
          · exact hall v hv
    · rw [if_neg hl]
      exact ⟨[], rfl, Nat.zero_le _, by simp⟩

theorem ebind_ok {α β : Type} (a : α) (f : α → Except String β) :
    (Except.ok a >>= f) = f a := rfl

/-- Property of one parsed threshold row: the member count is a small
integer and each limit is an amount string or the filler. -/
def rowOK (row : TableRow) : Prop :=
  (∃ k : Int, Py.pyInt row.miembros = .ok k ∧ k < 20) ∧
  (amtStr row.umbral_1 ∨ row.umbral_1 = "N/A") ∧
  (amtStr row.umbral_2 ∨ row.umbral_2 = "N/A") ∧
  (amtStr row.umbral_3 ∨ row.umbral_3 = "N/A")

/-- The fuel in `stratBF` is an artifact of the embedding, not of the source:
any fuel covering the number of lines gives the same result as the canonical
`stratB` (which uses `lines.length`), since each step consumes at least one
line.  So `stratB` faithfully models the source's unbounded `while` loop. -/
theorem stratBF_fuel_sufficient :
    ∀ (f : Nat) (lines : List String), lines.length ≤ f →
      stratBF f lines = stratBF lines.length lines
  | _, [], _ => by simp only [stratBF]
  | 0, l :: rest, hle => by
    exact absurd hle (by simp)
  | f + 1, l :: rest, hle => by
    have hr : rest.length ≤ f := by
      simpa using Nat.le_of_succ_le_succ (by simpa using hle)
    have hrec : stratBF f rest = stratBF rest.length rest := by
      rw [stratBF_fuel_sufficient f rest hr]
    show stratBF (f + 1) (l :: rest) = stratBF (rest.length + 1) (l :: rest)
    rw [stratBF, stratBF]
    rcases hm : rowMatch (Py.pyStrip l) with _ | ⟨g1, g2, g3, g4⟩ <;> dsimp only
    · by_cases hb : bareIntLine (Py.pyStrip l) = true
      · simp only [if_pos hb]
        rcases hpi : Py.pyInt (Py.pyStrip l) with e | n
        · rfl
        · simp only [ebind_ok]
          by_cases hn : n < 20
          · simp only [if_pos hn]
            rcases hta : takeAmounts rest 3 with e | vs
            · rfl
            · simp only [ebind_ok]
              by_cases h2 : 2 ≤ vs.length
              · simp only [if_pos h2]
                rcases hI0 : Py.pyIndex vs 0 with e | v0
                · rfl
                · simp only [ebind_ok]
                  rcases hI1 : Py.pyIndex vs 1 with e | v1
                  · rfl
                  · simp only [ebind_ok]
                    have hd : (rest.drop vs.length).length ≤ rest.length :=
                      by simp
                    have hrecd : stratBF f (rest.drop vs.length) =
                        stratBF rest.length (rest.drop vs.length) := by
                      rw [stratBF_fuel_sufficient f (rest.drop vs.length)
                            (le_trans hd hr),
                          stratBF_fuel_sufficient rest.length
                            (rest.drop vs.length) hd]
                    by_cases h3 : 2 < vs.length
                    · simp only [if_pos h3]
                      rcases hI2 : Py.pyIndex vs 2 with e | v2
                      · rfl
                      · simp only [ebind_ok]
                        rw [hrecd]
                    · simp only [if_neg h3, ebind_ok]
                      rw [hrecd]
              · simp only [if_neg h2]
                rw [hrec]
          · simp only [if_neg hn]
            rw [hrec]
      · simp only [if_neg hb]
        rw [hrec]
    · rcases hpi : Py.pyInt g1 with e | n
      · rfl
      · simp only [ebind_ok]
        by_cases hn : n < 20
        · simp only [if_pos hn]
          rw [hrec]
        · simp only [if_neg hn]
          rw [hrec]
termination_by f _ _ => f

theorem stratBF_spec :
    ∀ (fuel : Nat) (lines : List String), ∃ rows,
      stratBF fuel lines = .ok rows ∧ ∀ row ∈ rows, rowOK row
  | _, [] => ⟨[], by rw [stratBF], by simp⟩
  | 0, _ :: _ => ⟨[], rfl, by simp⟩
  | fuel + 1, l :: rest => by
    rw [stratBF]
    rcases hm : rowMatch (Py.pyStrip l) with _ | ⟨g1, g2, g3, g4⟩ <;> dsimp only
    · by_cases hb : bareIntLine (Py.pyStrip l) = true
      · rw [if_pos hb]
        have hdig : digitsOnly (Py.pyStrip l) := by
          rw [bareIntLine] at hb
          simp only [Bool.and_eq_true, Bool.not_eq_true'] at hb
          exact ⟨by simpa using hb.1, hb.2⟩
        rw [pyInt_ok hdig, ebind_ok]
        by_cases hn : (((Py.pyStrip l).data.foldl
            (fun n c => n * 10 + (c.toNat - 48)) 0 : Nat) : Int) < 20
        · rw [if_pos hn]
          obtain ⟨vs, hvs, hlen, hall⟩ := takeAmounts_spec 3 rest
          rw [hvs, ebind_ok]
          by_cases h2 : 2 ≤ vs.length
          · rw [if_pos h2]
            match vs, h2, hall with
            | v0 :: v1 :: vrest, _, hall => ?_
            obtain ⟨rows, hrows, hrok⟩ :=
              stratBF_spec fuel (rest.drop (v0 :: v1 :: vrest).length)
            rcases vrest with _ | ⟨v2, vrest2⟩
            · refine ⟨⟨Py.pyStrip l, v0, v1, "N/A"⟩ :: rows, ?_, ?_⟩
              · have hI0 : Py.pyIndex [v0, v1] 0 = .ok v0 := rfl
                have hI1 : Py.pyIndex [v0, v1] 1 = .ok v1 := rfl
                rw [hI0, ebind_ok, hI1, ebind_ok, if_neg (by simp)]
                rw [ebind_ok, hrows, ebind_ok]
              · intro row hrow
                rcases List.mem_cons.mp hrow with hrow | hrow
                · subst hrow
                  refine ⟨⟨_, pyInt_ok hdig, hn⟩, ?_, ?_, Or.inr rfl⟩
                  · exact Or.inl (hall v0 (by simp))
                  · exact Or.inl (hall v1 (by simp))
                · exact hrok row hrow
            · refine ⟨⟨Py.pyStrip l, v0, v1, v2⟩ :: rows, ?_, ?_⟩
              · have hI0 : Py.pyIndex (v0 :: v1 :: v2 :: vrest2) 0 = .ok v0 := rfl
                have hI1 : Py.pyIndex (v0 :: v1 :: v2 :: vrest2) 1 = .ok v1 := rfl
                have hI2 : Py.pyIndex (v0 :: v1 :: v2 :: vrest2) 2 = .ok v2 := rfl
                rw [hI0, ebind_ok, hI1, ebind_ok,
                  if_pos (by simp only [List.length_cons]; omega), hI2,
                  ebind_ok, hrows, ebind_ok]
              · intro row hrow
                rcases List.mem_cons.mp hrow with hrow | hrow
                · subst hrow
                  refine ⟨⟨_, pyInt_ok hdig, hn⟩, ?_, ?_, ?_⟩
                  · exact Or.inl (hall v0 (by simp))
                  · exact Or.inl (hall v1 (by simp))
                  · exact Or.inl (hall v2 (by simp))
                · exact hrok row hrow
          · rw [if_neg h2]
            exact stratBF_spec fuel rest
        · rw [if_neg hn]
          exact stratBF_spec fuel rest
      · rw [if_neg hb]
        exact stratBF_spec fuel rest
    · obtain ⟨hg1, hg2, hg3, hg4⟩ := rowMatch_spec hm
      rw [pyInt_ok hg1, ebind_ok]
      by_cases hn : ((g1.data.foldl (fun n c => n * 10 + (c.toNat - 48)) 0 :
          Nat) : Int) < 20
      · rw [if_pos hn]
        obtain ⟨rows, hrows, hrok⟩ := stratBF_spec fuel rest
        rw [hrows, ebind_ok]
        refine ⟨_, rfl, ?_⟩
        intro row hrow
        rcases List.mem_cons.mp hrow with hrow | hrow
        · subst hrow
          refine ⟨⟨_, pyInt_ok hg1, hn⟩, Or.inl hg2, Or.inl hg3, ?_⟩
          rcases hg4' : g4 with _ | g
          · exact Or.inr rfl
          · exact Or.inl (hg4 g hg4')
        · exact hrok row hrow
      · rw [if_neg hn]
        exact stratBF_spec fuel rest

theorem bracketFold_spec :
    ∀ (l : List (Option String × String)) (acc : List PyVal),
      (∀ p ∈ l, optP digitsOnly p.1) → (∀ x ∈ acc, bracketShape x) →
      ∃ bs, l.foldlM bracketStep acc = .ok bs ∧ ∀ x ∈ bs, bracketShape x
  | [], acc, _, hacc => ⟨acc, rfl, hacc⟩
  | p :: ps, acc, hl, hacc => by
    rw [List.foldlM]
    rcases hp : p.1 with _ | g
    · have hstep : bracketStep acc p = .ok acc := by
        rw [bracketStep, hp]
        rfl
      rw [hstep, ebind_ok]
      exact bracketFold_spec ps acc
        (fun q hq => hl q (List.mem_cons_of_mem _ hq)) hacc
    · have hd : digitsOnly g := by
        have := hl p (List.mem_cons_self _ _)
        rw [hp] at this
        exact this
      have hstep : bracketStep acc p = .ok (acc ++
          [PyVal.dict [("nota_media", PyVal.str p.2), ("cuantia_euros",
            PyVal.int ((g.data.foldl
              (fun n c => n * 10 + (c.toNat - 48)) 0 : Nat) : Int))]]) := by
        rw [bracketStep, hp]
        dsimp only
        rw [pyInt_ok hd, ebind_ok]
        rfl
      rw [hstep, ebind_ok]
      refine bracketFold_spec ps _
        (fun q hq => hl q (List.mem_cons_of_mem _ hq)) ?_
      intro x hx
      rcases List.mem_append.mp hx with hx | hx
      · exact hacc x hx
      · rw [List.mem_singleton.mp hx]
        exact ⟨p.2, _, rfl⟩

theorem extract_excellence_brackets_spec (m1 m2 m3 m4 : Option String)
    (h1 : optP digitsOnly m1) (h2 : optP digitsOnly m2)
    (h3 : optP digitsOnly m3) (h4 : optP digitsOnly m4) :
    ∃ v, extract_excellence_brackets m1 m2 m3 m4 = .ok v ∧
      ∀ a ∈ bracketAmounts v, ∃ n : Int, a = .int n := by
  obtain ⟨bs, hbs, hshape⟩ := bracketFold_spec
    [(m1, "8.00-8.49"), (m2, "8.50-8.99"), (m3, "9.00-9.49"), (m4, "9.50+")]
    [] (by
      intro p hp
      simp only [List.mem_cons, List.not_mem_nil, or_false] at hp
      rcases hp with hp | hp | hp | hp <;> rw [hp]
      · exact h1
      · exact h2
      · exact h3
      · exact h4) (by simp)
  rw [extract_excellence_brackets, hbs, ebind_ok]
  by_cases he : bs.isEmpty = true
  · rw [if_pos he]
    exact ⟨_, rfl, by simp [bracketAmounts]⟩
  · rw [if_neg he]
    refine ⟨_, rfl, ?_⟩
    intro a ha
    simp only [bracketAmounts, List.mem_filterMap] at ha
    obtain ⟨b, hb, hlook⟩ := ha
    obtain ⟨rng, n, hbeq⟩ := hshape b hb
    subst hbeq
    simp only [List.lookup] at hlook
    refine ⟨n, ?_⟩
    have : some (PyVal.int n) = some a := by
      rw [← hlook]
      rfl
    exact (Option.some_inj.mp this).symm

theorem dictInsertStr_values {es : List (String × String)} {k v : String} :
    ∀ q ∈ dictInsertStr es k v, q.2 = v ∨ ∃ e ∈ es, e.2 = q.2 := by
  intro q hq
  rw [dictInsertStr] at hq
  split_ifs at hq with h
  · rcases List.mem_map.mp hq with ⟨e, he, heq⟩
    by_cases hk : e.1 == k
    · rw [if_pos hk] at heq
      rw [← heq]
      exact Or.inl rfl
    · rw [if_neg hk] at heq
      exact Or.inr ⟨e, he, by rw [heq]⟩
  · rcases List.mem_append.mp hq with hq | hq
    · exact Or.inr ⟨q, hq, rfl⟩
    · rw [List.mem_singleton.mp hq]
      exact Or.inl rfl

theorem foldl_dict_values :
    ∀ (pairs acc : List (String × String)),
      ∀ q ∈ pairs.foldl (fun a p => dictInsertStr a p.1 p.2) acc,
        (∃ p ∈ pairs, p.2 = q.2) ∨ (∃ e ∈ acc, e.2 = q.2)
  | [], acc, q, hq => Or.inr ⟨q, hq, rfl⟩
  | p :: ps, acc, q, hq => by
    rw [List.foldl_cons] at hq
    rcases foldl_dict_values ps (dictInsertStr acc p.1 p.2) q hq with
      ⟨r, hr, hrv⟩ | ⟨e, he, hev⟩
    · exact Or.inl ⟨r, List.mem_cons_of_mem _ hr, hrv⟩
    · rcases dictInsertStr_values e he with hv | ⟨e2, he2, he2v⟩
      · exact Or.inl ⟨p, List.mem_cons_self _ _, hv ▸ hev⟩
      · exact Or.inr ⟨e2, he2, he2v.trans hev⟩

theorem buildTVals_values {pairs : List (String × String)}
    {q : String × String} (hq : q ∈ buildTVals pairs) :
    ∃ p ∈ pairs, p.2 = q.2 := by
  rcases foldl_dict_values pairs [] q hq with h | ⟨e, he, _⟩
  · exact h
  · exact absurd he (List.not_mem_nil _)

theorem amtStr_numLocale {s : String} (h : amtStr s) : numLocale s := by
  refine ⟨h.1, ?_⟩
  have h2 := h.2
  rw [List.all_eq_true] at h2 ⊢
  intro c hc
  have := h2 c hc
  simp only [Bool.or_eq_true] at this ⊢
  tauto

theorem stratA_mem {secs : Fin 3 → Option (List (String × String))}
    {kp : String × List (String × String)} (h : kp ∈ stratA secs) :
    ∃ i pairs, secs i = some pairs ∧ kp.2 = buildTVals pairs := by
  rw [stratA] at h
  rcases List.mem_filterMap.mp h with ⟨i, _, hi⟩
  rcases hsi : secs i with _ | pairs
  · rw [hsi] at hi
    simp at hi
  · rw [hsi] at hi
    dsimp only at hi
    by_cases hne : buildTVals pairs ≠ []
    · rw [if_pos hne] at hi
      refine ⟨i, pairs, hsi, ?_⟩
      rw [← Option.some_inj.mp hi]
    · rw [if_neg hne] at hi
      simp at hi

theorem extract_thresholds_spec (contentOpt : Option String)
    (secs : Fin 3 → Option (List (String × String)))
    (hsec : ∀ i ps, secs i = some ps → ∀ p ∈ ps, numLocale p.2) :
    ∃ v, extract_thresholds contentOpt secs = .ok v ∧
      ∀ a ∈ thresholdValues v, ∃ s, a = .str s ∧ (numLocale s ∨ s = "N/A") := by
  cases contentOpt with
  | none => exact ⟨_, rfl, by simp [thresholdValues]⟩
  | some content =>
    rw [extract_thresholds]
    by_cases hk : stratA secs ≠ []
    · rw [if_pos hk]
      refine ⟨_, rfl, ?_⟩
      intro a ha
      simp only [thresholdValues, List.mem_flatMap] at ha
      obtain ⟨entry, hentry, hain⟩ := ha
      rcases List.mem_map.mp hentry with ⟨kp, hkp, hkpeq⟩
      rw [← hkpeq] at hain
      dsimp only at hain
      rw [List.map_map] at hain
      rcases List.mem_map.mp hain with ⟨q, hq, hqeq⟩
      obtain ⟨i, pairs, hsi, htv⟩ := stratA_mem hkp
      rw [htv] at hq
      obtain ⟨p, hp, hpv⟩ := buildTVals_values hq
      refine ⟨q.2, ?_, Or.inl ?_⟩
      · rw [← hqeq]
        rfl
      · rw [← hpv]
        exact hsec i pairs hsi p hp
    · rw [if_neg hk]
      obtain ⟨rows, hrows, hrok⟩ := stratBF_spec
        ((Py.splitChar '\n' content.data).map (fun cs => String.mk cs)).length
        ((Py.splitChar '\n' content.data).map (fun cs => String.mk cs))
      have hsb : stratB
          ((Py.splitChar '\n' content.data).map (fun cs => String.mk cs)) =
          .ok rows := hrows
      rw [hsb, ebind_ok]
      by_cases ht : rows ≠ []
      · rw [if_pos ht]
        refine ⟨_, rfl, ?_⟩
        intro a ha
        simp only [thresholdValues, List.mem_flatMap] at ha
        obtain ⟨entry, hentry, hain⟩ := ha
        rw [List.mem_singleton.mp hentry] at hain
        dsimp only at hain
        rcases List.mem_flatMap.mp hain with ⟨rowPy, hrowPy, harow⟩
        rcases List.mem_map.mp hrowPy with ⟨row, hrow, hroweq⟩
        rw [← hroweq, rowToPyVal] at harow
        dsimp only at harow
        obtain ⟨hmem, hu1, hu2, hu3⟩ := hrok row hrow
        have hval : a = PyVal.str row.umbral_1 ∨ a = PyVal.str row.umbral_2 ∨
            a = PyVal.str row.umbral_3 := by
          simp only [List.mem_filterMap, List.mem_cons,
            List.not_mem_nil, or_false] at harow
          obtain ⟨f, hf, hfeq⟩ := harow
          rcases hf with hf | hf | hf | hf <;> subst hf <;> simp at hfeq
          · exact Or.inl hfeq.symm
          · exact Or.inr (Or.inl hfeq.symm)
          · exact Or.inr (Or.inr hfeq.symm)
        rcases hval with hv | hv | hv
        · exact ⟨row.umbral_1, hv, hu1.imp amtStr_numLocale id⟩
        · exact ⟨row.umbral_2, hv, hu2.imp amtStr_numLocale id⟩
        · exact ⟨row.umbral_3, hv, hu3.imp amtStr_numLocale id⟩
      · rw [if_neg ht]
        exact ⟨_, rfl, by simp [thresholdValues]⟩

theorem numLocale_sentinel_cases (m : Option String) (d : String)
    (hm : optP numLocale m) (hd : numLocale d ∨ d = "No detectado") :
    numLocale (m.getD d) ∨ m.getD d = "No detectado" := by
  cases m with
  | none => exact hd
  | some g => exact Or.inl hm

theorem extract_amounts_spec (renta residencia basica varMin : Option String)
    (excel : Option (String × String)) (has50 has125 : Bool)
    (h1 : optP numLocale renta) (h2 : optP numLocale residencia)
    (h3 : optP numLocale basica) (h4 : optP numLocale varMin)
    (h5 : match excel with
          | some p => numLocale p.1 ∧ numLocale p.2
          | none => True) :
    ∃ a, extract_amounts renta residencia basica varMin excel has50 has125 =
        .ok a ∧
      (numLocale a.cuantia_renta_fija ∨ a.cuantia_renta_fija = "No detectado") ∧
      (numLocale a.cuantia_residencia ∨ a.cuantia_residencia = "No detectado") ∧
      (numLocale a.beca_basica ∨ a.beca_basica = "No detectado") ∧
      (numLocale a.cuantia_variable_minima ∨
        a.cuantia_variable_minima = "No detectado") ∧
      (numLocale a.excelencia_min ∨ a.excelencia_min = "No detectado") ∧
      (numLocale a.excelencia_max ∨ a.excelencia_max = "No detectado") := by
  refine ⟨_, rfl, ?_, ?_, ?_, ?_, ?_, ?_⟩
  · exact numLocale_sentinel_cases renta _ h1 (Or.inr rfl)
  · exact numLocale_sentinel_cases residencia _ h2 (Or.inr rfl)
  · exact numLocale_sentinel_cases basica _ h3 (Or.inr rfl)
  · exact numLocale_sentinel_cases varMin _ h4 (Or.inl ⟨by decide, by decide⟩)
  · cases excel with
    | some p => exact Or.inl h5.1
    | none =>
      dsimp only
      by_cases hb : has50 = true
      · rw [if_pos hb]
        exact Or.inl ⟨by decide, by decide⟩
      · rw [if_neg hb]
        exact Or.inr rfl
  · cases excel with
    | some p => exact Or.inl h5.2
    | none =>
      dsimp only
      by_cases hb : has125 = true
      · rw [if_pos hb]
        exact Or.inl ⟨by decide, by decide⟩
      · rw [if_neg hb]
        exact Or.inr rfl

theorem optEntry_mem {m : Option String} {k : String} {x : String × PyVal}
    (h : x ∈ optEntry m k) : ∃ g, m = some g ∧ x = (k, PyVal.str g) := by
  cases m with
  | none => exact absurd h (List.not_mem_nil _)
  | some g => exact ⟨g, rfl, List.mem_singleton.mp h⟩

theorem extract_patrimonio_spec (sectionFound : Bool)
    (urban ruralConst ruralLand capital : Option String)
    (h1 : optP numLocale urban) (h2 : optP numLocale ruralConst)
    (h3 : optP numLocale ruralLand) (h4 : optP numLocale capital) :
    ∃ v, extract_patrimonio_thresholds sectionFound urban ruralConst
        ruralLand capital = .ok v ∧
      ∀ a ∈ dictValues v, ∃ s, a = .str s ∧ numLocale s := by
  rw [extract_patrimonio_thresholds]
  by_cases hs : sectionFound = true
  · rw [if_pos hs]
    by_cases he : (optEntry urban "fincas_urbanas_limite" ++
        optEntry ruralConst "construcciones_rusticas_limite" ++
        optEntry ruralLand "fincas_rusticas_limite_por_miembro" ++
        optEntry capital "capital_mobiliario_limite").isEmpty = true
    · rw [if_pos he]
      exact ⟨_, rfl, by simp [dictValues]⟩
    · rw [if_neg he]
      refine ⟨_, rfl, ?_⟩
      intro a ha
      simp only [dictValues, List.mem_map] at ha
      obtain ⟨e, he2, heq⟩ := ha
      rcases List.mem_append.mp he2 with hx | hx
      rotate_left
      · obtain ⟨g, hg, hxe⟩ := optEntry_mem hx
        refine ⟨g, ?_, ?_⟩
        · rw [← heq, hxe]
        · rw [hg] at h4
          exact h4
      rcases List.mem_append.mp hx with hy | hy
      rotate_left
      · obtain ⟨g, hg, hxe⟩ := optEntry_mem hy
        refine ⟨g, ?_, ?_⟩
        · rw [← heq, hxe]
        · rw [hg] at h3
          exact h3
      rcases List.mem_append.mp hy with hz | hz
      · obtain ⟨g, hg, hxe⟩ := optEntry_mem hz
        refine ⟨g, ?_, ?_⟩
        · rw [← heq, hxe]
        · rw [hg] at h1
          exact h1
      · obtain ⟨g, hg, hxe⟩ := optEntry_mem hz
        refine ⟨g, ?_, ?_⟩
        · rw [← heq, hxe]
        · rw [hg] at h2
          exact h2
  · rw [if_neg hs]
    exact ⟨_, rfl, by simp [dictValues]⟩

theorem extract_income_deductions_spec
    (famGral famEsp d33 d65 dUni hermano huerfano mono : Option String)
    (h1 : optP numLocale famGral) (h2 : optP numLocale famEsp)
    (h3 : optP numLocale d33) (h4 : optP numLocale d65)
    (h5 : optP numLocale dUni) (h6 : optP numLocale hermano)
    (h8 : optP numLocale mono) :
    ∃ v, extract_income_deductions famGral famEsp d33 d65 dUni hermano
        huerfano mono = .ok v ∧
      ∀ a ∈ deductionValues v, ∃ s, a = .str s ∧ numLocale s := by
  rw [extract_income_deductions.eq_def]
  by_cases he : (optEntry famGral "deduccion_familia_numerosa_general" ++
      optEntry famEsp "deduccion_familia_numerosa_especial" ++
      optEntry d33 "deduccion_discapacidad_33" ++
      optEntry d65 "deduccion_discapacidad_65" ++
      optEntry dUni "deduccion_discapacidad_65_universitario" ++
      optEntry hermano "deduccion_hermano_universitario_fuera" ++
      (match huerfano with
       | some g => [("deduccion_huerfano_porcentaje", PyVal.str (g ++ "%"))]
       | none => []) ++
      optEntry mono "deduccion_familia_monoparental").isEmpty = true
  · rw [if_pos he]
    exact ⟨_, rfl, by simp [deductionValues]⟩
  · rw [if_neg he]
    refine ⟨_, rfl, ?_⟩
    intro a ha
    simp only [deductionValues, List.mem_filterMap] at ha
    obtain ⟨p, hp, hpeq⟩ := ha
    by_cases hk : (p.1 == "deduccion_huerfano_porcentaje") = true
    · rw [if_pos hk] at hpeq
      exact absurd hpeq (by simp)
    · rw [if_neg hk] at hpeq
      have hpa : p.2 = a := by simpa using hpeq
      have hnum : ∃ g, p = (p.1, PyVal.str g) ∧ numLocale g := by
        rcases List.mem_append.mp hp with hx | hx
        rotate_left
        · obtain ⟨g, hg, hxe⟩ := optEntry_mem hx
          exact ⟨g, by rw [hxe], by rw [hg] at h8; exact h8⟩
        rcases List.mem_append.mp hx with hx | hx
        rotate_left
        · rcases hh : huerfano with _ | g
          · rw [hh] at hx
            exact absurd hx (List.not_mem_nil _)
          · rw [hh] at hx
            have hxp := List.mem_singleton.mp hx
            rw [hxp] at hk
            simp at hk
        rcases List.mem_append.mp hx with hx | hx
        rotate_left
        · obtain ⟨g, hg, hxe⟩ := optEntry_mem hx
          exact ⟨g, by rw [hxe], by rw [hg] at h6; exact h6⟩
        rcases List.mem_append.mp hx with hx | hx
        rotate_left
        · obtain ⟨g, hg, hxe⟩ := optEntry_mem hx
          exact ⟨g, by rw [hxe], by rw [hg] at h5; exact h5⟩
        rcases List.mem_append.mp hx with hx | hx
        rotate_left
        · obtain ⟨g, hg, hxe⟩ := optEntry_mem hx
          exact ⟨g, by rw [hxe], by rw [hg] at h4; exact h4⟩
        rcases List.mem_append.mp hx with hx | hx
        rotate_left
        · obtain ⟨g, hg, hxe⟩ := optEntry_mem hx
          exact ⟨g, by rw [hxe], by rw [hg] at h3; exact h3⟩
        rcases List.mem_append.mp hx with hx | hx
        · obtain ⟨g, hg, hxe⟩ := optEntry_mem hx
          exact ⟨g, by rw [hxe], by rw [hg] at h1; exact h1⟩
        · obtain ⟨g, hg, hxe⟩ := optEntry_mem hx
          exact ⟨g, by rw [hxe], by rw [hg] at h2; exact h2⟩
      obtain ⟨g, hpg, hgnum⟩ := hnum
      refine ⟨g, ?_, hgnum⟩
      rw [← hpa, hpg]

theorem extract_programs_ok (m : Option String) :
    ∃ v, extract_programs m = .ok v := by
  cases m with
  | none => exact ⟨_, rfl⟩
  | some content =>
    rw [extract_programs]
    dsimp only
    by_cases hf : clean_text (String.intercalate " "
        (((Py.splitChar '\n' content.data).map (fun l =>
          cutFrom "DIRECCIÓN DE VALIDACIÓN".data
            (cutFrom "FIRMANTE".data (cutFrom "CSV :".data l)))).filterMap
          (fun l =>
            let line := Py.pyStrip (String.mk l)
            if decide (10 < line.data.length) && !isdigitStr line &&
                !containsSub "Página".data line.data then some line
            else none))) ≠ ""
    · exact ⟨_, by rw [if_pos hf]⟩
    · exact ⟨_, by rw [if_neg hf]⟩

theorem epure_bind {α β : Type} (a : α) (f : α → Except String β) :
    ((pure a : Except String α) >>= f) = f a := rfl

theorem if_ok {α : Type} (p : Prop) [Decidable p] (x y : α) :
    ∃ v, (if p then (pure x : Except String α) else pure y) = .ok v := by
  by_cases h : p
  · refine ⟨x, ?_⟩
    rw [if_pos h]
    rfl
  · refine ⟨y, ?_⟩
    rw [if_neg h]
    rfl

theorem extract_academic_requirements_ok
    (creditos parcial nota : Option String) (areas : Fin 5 → Option String)
    (h1 : optP digitsOnly creditos) (h2 : optP digitsOnly parcial) :
    ∃ v, extract_academic_requirements creditos parcial nota areas = .ok v := by
  rw [extract_academic_requirements.eq_def]
  cases creditos with
  | none =>
    cases parcial with
    | none =>
      dsimp only
      rw [epure_bind, epure_bind]
      exact if_ok _ _ _
    | some g2 =>
      dsimp only
      rw [epure_bind, pyInt_ok h2, ebind_ok, epure_bind]
      exact if_ok _ _ _
  | some g1 =>
    cases parcial with
    | none =>
      dsimp only
      rw [pyInt_ok h1, ebind_ok, epure_bind, epure_bind]
      exact if_ok _ _ _
    | some g2 =>
      dsimp only
      rw [pyInt_ok h1, ebind_ok, epure_bind, pyInt_ok h2, ebind_ok,
        epure_bind]
      exact if_ok _ _ _

theorem extract_insular_supplements_ok (sectionFound : Bool)
    (basic remote : Option String) (peninsula : List (String × String))
    (fp : Option String) :
    ∃ v, extract_insular_supplements sectionFound basic remote peninsula fp =
      .ok v := by
  rw [extract_insular_supplements.eq_def]
  by_cases hs : sectionFound = true
  · rw [if_pos hs]
    cases peninsula with
    | nil =>
      dsimp only
      rw [epure_bind]
      exact if_ok _ _ _
    | cons p ps =>
      dsimp only
      have hI : Py.pyIndex (p :: ps) 0 = .ok p := rfl
      rw [hI, ebind_ok, epure_bind]
      exact if_ok _ _ _
  · rw [if_neg hs]
    exact ⟨_, rfl⟩

theorem extract_disability_provisions_ok (sectionFound reduccion : Bool)
    (incr25 incr50 : Option String) :
    ∃ v, extract_disability_provisions sectionFound reduccion incr25 incr50 =
      .ok v := by
  rw [extract_disability_provisions.eq_def]
  by_cases hs : sectionFound = true
  · rw [if_pos hs]
    dsimp only
    by_cases he : ((if reduccion = true then
        [("reduccion_carga_lectiva", PyVal.str "Discapacidad >= 65%")]
        else []) ++
      (match incr25 with
       | some g => [("incremento_discapacidad_25_65", PyVal.str (g ++ "%"))]
       | none => []) ++
      (match incr50 with
       | some g =>
         [("incremento_matricula_completa_discapacidad",
           PyVal.str (g ++ "%"))]
       | none => [])).isEmpty = true
    · exact ⟨_, by rw [if_pos he]⟩
    · exact ⟨_, by rw [if_neg he]⟩
  · rw [if_neg hs]
    exact ⟨_, rfl⟩

theorem extract_deadlines_ok (contentOpt : Option String)
    (dates : List String) (uni noUni : Option String) :
    ∃ v, extract_deadlines contentOpt dates uni noUni = .ok v := by
  cases contentOpt with
  | none => exact ⟨_, rfl⟩
  | some content => exact ⟨_, rfl⟩

theorem ebind_ok_inv {α β : Type} {x : Except String α}
    {f : α → Except String β} {b : β} (h : (x >>= f) = .ok b) :
    ∃ a, x = .ok a ∧ f a = .ok b := by
  cases x with
  | ok a => exact ⟨a, rfl, h⟩
  | error e =>
    exfalso
    have : (Except.error e >>= f) = (.error e : Except String β) := rfl
    rw [this] at h
    exact absurd h (by simp)

theorem ok_inj {α : Type} {a b : α}
    (h : (Except.ok a : Except String α) = .ok b) : a = b :=
  Except.ok.inj h

end Extractor

/-- C2: for every search outcome satisfying the `re` guarantees, the
Document-Record builder returns normally with a typed record and no rule
raises; when no pattern matches anywhere, every field holds its literal
sentinel or default. -/
theorem C2_extraction_rules_total :
    (∀ (fichero : String) (sr : Extractor.SearchResults), Extractor.WF sr →
      ∃ r, Extractor.build_record fichero sr = .ok r) ∧
    (∀ fichero, Extractor.build_record fichero Extractor.noMatches =
      .ok (Extractor.sentinelRecord fichero)) := by
  constructor
  · intro fichero sr hwf
    obtain ⟨w1, w2, w3, w4, w5, w6, w7, w8, w9, w10, w11, w12, w13, w14,
      w15, w16, w17, w18, w19, w20, w21, w22, w23, w24, w25, w26, w27, w28,
      w29, w30, w31, w32, w33⟩ := hwf
    obtain ⟨year, hy⟩ := Extractor.extract_academic_year_ok
      sr.yearHeader sr.yearFile sr.yearFileShort w1
    obtain ⟨prog, hprog⟩ := Extractor.extract_programs_ok sr.programsSection
    obtain ⟨amounts, hamt, _⟩ := Extractor.extract_amounts_spec
      sr.rentaFija sr.residencia sr.becaBasica sr.variableMin
      sr.excelenciaRange sr.has50Euros sr.has125Euros w2 w3 w4 w5 w6
    obtain ⟨tramos, htr, _⟩ := Extractor.extract_excellence_brackets_spec
      sr.bracketM1 sr.bracketM2 sr.bracketM3 sr.bracketM4 w15 w16 w17 w18
    obtain ⟨umb, hum, _⟩ := Extractor.extract_thresholds_spec
      sr.art19Content sr.umbralSec w33
    obtain ⟨pat, hpat, _⟩ := Extractor.extract_patrimonio_spec
      sr.patrimonioSection sr.fincasUrbanas sr.construccionesRusticas
      sr.fincasRusticas sr.capitalMobiliario w7 w8 w9 w10
    obtain ⟨req, hreq⟩ := Extractor.extract_academic_requirements_ok
      sr.creditosCompleto sr.creditosParcial sr.notaAcceso sr.areaRates
      w11 w12
    obtain ⟨ins, hins⟩ := Extractor.extract_insular_supplements_ok
      sr.insularSection sr.supBasico sr.supRemotas sr.interPeninsula
      sr.fpCanarias
    obtain ⟨ded, hded, _⟩ := Extractor.extract_income_deductions_spec
      sr.dedFamGral sr.dedFamEsp sr.dedDisc33 sr.dedDisc65 sr.dedDiscUni
      sr.dedHermano sr.dedHuerfano sr.dedMono w23 w24 w25 w26 w27 w28 w30
    obtain ⟨dis, hdis⟩ := Extractor.extract_disability_provisions_ok
      sr.discSection sr.discReduccion sr.discIncr25 sr.discIncr50
    obtain ⟨dl, hdl⟩ := Extractor.extract_deadlines_ok
      sr.deadlinesContent sr.deadlineDates sr.deadlineUni sr.deadlineNoUni
    apply Exists.intro
    rw [Extractor.build_record, hy, Extractor.ebind_ok, hprog,
      Extractor.ebind_ok, hamt, Extractor.ebind_ok, htr, Extractor.ebind_ok,
      hum, Extractor.ebind_ok, hpat, Extractor.ebind_ok, hreq,
      Extractor.ebind_ok, hins, Extractor.ebind_ok, hded,
      Extractor.ebind_ok, hdis, Extractor.ebind_ok, hdl, Extractor.ebind_ok]
  · intro fichero
    rfl

/-- C2 witness: the all-sentinel outcome is well-formed and produces the
sentinel record. -/
theorem C2_extraction_rules_total_witness :
    Extractor.WF Extractor.noMatches ∧
    (∃ r, Extractor.build_record "becas.pdf" Extractor.noMatches = .ok r) ∧
    Extractor.build_record "becas.pdf" Extractor.noMatches =
      .ok (Extractor.sentinelRecord "becas.pdf") :=
  ⟨by constructor <;> simp [Extractor.noMatches, Extractor.optP],
    C2_extraction_rules_total.1 "becas.pdf" Extractor.noMatches
      (by constructor <;> simp [Extractor.noMatches, Extractor.optP]),
    C2_extraction_rules_total.2 "becas.pdf"⟩

/-- C4 (amended): every monetary field of a produced Document Record is a
string matching the source numeric-locale pattern or the sentinel, except
that excellence-bracket amounts are parsed integers and a strategy-B row
may carry the filler for a missing third threshold. -/
theorem C4_monetary_fields (fichero : String) (sr : Extractor.SearchResults)
    (hwf : Extractor.WF sr) (r : Extractor.Record)
    (hr : Extractor.build_record fichero sr = .ok r) :
    ∀ v ∈ Extractor.monetaryFields r,
      (∃ s, v = PyVal.str s ∧
        (Extractor.numLocale s ∨ s = "No detectado" ∨ s = "N/A")) ∨
      (∃ n : Int, v = PyVal.int n) := by
  obtain ⟨w1, w2, w3, w4, w5, w6, w7, w8, w9, w10, w11, w12, w13, w14,
    w15, w16, w17, w18, w19, w20, w21, w22, w23, w24, w25, w26, w27, w28,
    w29, w30, w31, w32, w33⟩ := hwf
  rw [Extractor.build_record] at hr
  obtain ⟨year, hy, hr⟩ := Extractor.ebind_ok_inv hr
  obtain ⟨prog, hprog, hr⟩ := Extractor.ebind_ok_inv hr
  obtain ⟨amounts, hamt, hr⟩ := Extractor.ebind_ok_inv hr
  obtain ⟨tramos, htr, hr⟩ := Extractor.ebind_ok_inv hr
  obtain ⟨umb, hum, hr⟩ := Extractor.ebind_ok_inv hr
  obtain ⟨pat, hpat, hr⟩ := Extractor.ebind_ok_inv hr
  obtain ⟨req, hreq, hr⟩ := Extractor.ebind_ok_inv hr
  obtain ⟨ins, hins, hr⟩ := Extractor.ebind_ok_inv hr
  obtain ⟨ded, hded, hr⟩ := Extractor.ebind_ok_inv hr
  obtain ⟨dis, hdis, hr⟩ := Extractor.ebind_ok_inv hr
  obtain ⟨dl, hdl, hr⟩ := Extractor.ebind_ok_inv hr
  have hrec := Extractor.ok_inj hr
  subst hrec
  intro v hv
  simp only [Extractor.monetaryFields] at hv
  rcases List.mem_append.mp hv with hv | hv
  rotate_left
  · -- deduction values
    obtain ⟨ded2, hded2, hshape⟩ := Extractor.extract_income_deductions_spec
      sr.dedFamGral sr.dedFamEsp sr.dedDisc33 sr.dedDisc65 sr.dedDiscUni
      sr.dedHermano sr.dedHuerfano sr.dedMono w23 w24 w25 w26 w27 w28 w30
    have he : ded2 = ded := Extractor.ok_inj (hded2.symm.trans hded)
    subst he
    obtain ⟨str2, hstr, hnum⟩ := hshape v hv
    exact Or.inl ⟨str2, hstr, Or.inl hnum⟩
  rcases List.mem_append.mp hv with hv | hv
  rotate_left
  · -- asset-threshold values
    obtain ⟨pat2, hpat2, hshape⟩ := Extractor.extract_patrimonio_spec
      sr.patrimonioSection sr.fincasUrbanas sr.construccionesRusticas
      sr.fincasRusticas sr.capitalMobiliario w7 w8 w9 w10
    have he : pat2 = pat := Extractor.ok_inj (hpat2.symm.trans hpat)
    subst he
    obtain ⟨str2, hstr, hnum⟩ := hshape v hv
    exact Or.inl ⟨str2, hstr, Or.inl hnum⟩
  rcases List.mem_append.mp hv with hv | hv
  rotate_left
  · -- income-threshold values
    obtain ⟨umb2, hum2, hshape⟩ := Extractor.extract_thresholds_spec
      sr.art19Content sr.umbralSec w33
    have he : umb2 = umb := Extractor.ok_inj (hum2.symm.trans hum)
    subst he
    obtain ⟨str2, hstr, hnum⟩ := hshape v hv
    exact Or.inl ⟨str2, hstr, hnum.imp id Or.inr⟩
  rcases List.mem_append.mp hv with hv | hv
  rotate_left
  · -- excellence-bracket amounts
    obtain ⟨tr2, htr2, hshape⟩ := Extractor.extract_excellence_brackets_spec
      sr.bracketM1 sr.bracketM2 sr.bracketM3 sr.bracketM4 w15 w16 w17 w18
    have he : tr2 = tramos := Extractor.ok_inj (htr2.symm.trans htr)
    subst he
    exact Or.inr (hshape v hv)
  · -- named amounts
    obtain ⟨a2, hamt2, s1, s2, s3, s4, s5, s6⟩ := Extractor.extract_amounts_spec
      sr.rentaFija sr.residencia sr.becaBasica sr.variableMin
      sr.excelenciaRange sr.has50Euros sr.has125Euros w2 w3 w4 w5 w6
    have he : a2 = amounts := Extractor.ok_inj (hamt2.symm.trans hamt)
    subst he
    simp only [List.mem_cons, List.not_mem_nil, or_false] at hv
    rcases hv with hv | hv | hv | hv | hv | hv <;> subst hv
    · exact Or.inl ⟨_, rfl, s1.imp id Or.inl⟩
    · exact Or.inl ⟨_, rfl, s2.imp id Or.inl⟩
    · exact Or.inl ⟨_, rfl, s3.imp id Or.inl⟩
    · exact Or.inl ⟨_, rfl, s4.imp id Or.inl⟩
    · exact Or.inl ⟨_, rfl, s5.imp id Or.inl⟩
    · exact Or.inl ⟨_, rfl, s6.imp id Or.inl⟩

/-- C4 counterexample: a bracket match stores the parsed integer 50, which
is not a string, in a producible Document Record's monetary fields. -/
theorem C4_monetary_fields_counterexample :
    Extractor.build_record "becas.pdf"
        { Extractor.noMatches with bracketM1 := some "50" } =
      .ok { Extractor.sentinelRecord "becas.pdf" with
            excelencia_tramos := .list [.dict [("nota_media",
              PyVal.str "8.00-8.49"), ("cuantia_euros", PyVal.int 50)]] } ∧
    PyVal.int 50 ∈ Extractor.monetaryFields
      { Extractor.sentinelRecord "becas.pdf" with
        excelencia_tramos := .list [.dict [("nota_media",
          PyVal.str "8.00-8.49"), ("cuantia_euros", PyVal.int 50)]] } ∧
    isStrV (PyVal.int 50) = false := by
  refine ⟨rfl, ?_, rfl⟩
  simp [Extractor.monetaryFields, Extractor.bracketAmounts,
    Extractor.sentinelRecord, Extractor.thresholdValues,
    Extractor.dictValues, Extractor.deductionValues, List.lookup]

/-- C4 witness: the theorem applied to the all-sentinel outcome. -/
theorem C4_monetary_fields_witness :
    Extractor.WF Extractor.noMatches ∧
    Extractor.build_record "b.pdf" Extractor.noMatches =
      .ok (Extractor.sentinelRecord "b.pdf") ∧
    ((∃ s, PyVal.str "No detectado" = PyVal.str s ∧
        (Extractor.numLocale s ∨ s = "No detectado" ∨ s = "N/A")) ∨
      (∃ n : Int, PyVal.str "No detectado" = PyVal.int n)) :=
  ⟨by constructor <;> simp [Extractor.noMatches, Extractor.optP],
   rfl,
   C4_monetary_fields "b.pdf" Extractor.noMatches
     (by constructor <;> simp [Extractor.noMatches, Extractor.optP])
     (Extractor.sentinelRecord "b.pdf") rfl
     (PyVal.str "No detectado")
     (by simp [Extractor.monetaryFields, Extractor.sentinelRecord])⟩

/-- C6 (amended): the threshold-table rule parses both physical layouts,
never errors, and keeps exactly the rows whose leading member count is
strictly below the sanity bound 20 (a count of 20 or more is discarded). -/
theorem C6_threshold_table (lines : List String) :
    (∃ rows, Extractor.stratB lines = .ok rows ∧
      ∀ row ∈ rows, ∃ k : Int, Py.pyInt row.miembros = .ok k ∧ k < 20) ∧
    Extractor.stratB ["3", "10.500", "20.000", "30.000"] =
      .ok [⟨"3", "10.500", "20.000", "30.000"⟩] ∧
    Extractor.stratB ["2", "8.843", "13.898"] =
      .ok [⟨"2", "8.843", "13.898", "N/A"⟩] ∧
    Extractor.stratB ["1 8.843 13.898 14.818"] =
      .ok [⟨"1", "8.843", "13.898", "14.818"⟩] ∧
    Extractor.extract_thresholds none (fun _ => none) =
      .ok (.str "No detectado") := by
  refine ⟨?_, rfl, rfl, rfl, rfl⟩
  obtain ⟨rows, hrows, hrok⟩ := Extractor.stratBF_spec lines.length lines
  exact ⟨rows, hrows, fun row hrow => (hrok row hrow).1⟩

/-- C6 witness: the line-split layout at a concrete section. -/
theorem C6_threshold_table_witness :
    ∃ rows, Extractor.stratB ["3", "10.500", "20.000", "30.000"] =
        .ok rows ∧
      ∀ row ∈ rows, ∃ k : Int, Py.pyInt row.miembros = .ok k ∧ k < 20 :=
  (C6_threshold_table ["3", "10.500", "20.000", "30.000"]).1

/-- C6 counterexample: a line-split row with member count exactly 20 — which
does not exceed 20 — is nonetheless discarded, leaving an empty table. -/
theorem C6_threshold_table_counterexample :
    Extractor.extract_thresholds (some "20\n10.500\n20.000\n30.000")
        (fun _ => none) = .ok (.dict []) ∧
    ¬((20 : Int) > 20) :=
  ⟨rfl, by decide⟩

/-- C7: the premise-text synthesis crashes on the all-sentinel Document
Record, which the extractor itself produces: iterating the sentinel string
in `excelencia_tramos` yields characters whose subscripting raises
`TypeError`, so sentinel fields are not treated as unknown. -/
theorem C7_premise_synthesis_crashes :
    Extractor.build_record "becas.pdf" Extractor.noMatches =
      .ok (Extractor.sentinelRecord "becas.pdf") ∧
    Halluc.generar_texto_becas (Extractor.sentinelRecord "becas.pdf") =
      .error "TypeError: string indices must be integers" :=
  ⟨rfl, rfl⟩
